import Mathlib

/-!
Uptime robot: cross-check and alert gate.

A shallow embedding of `main.go`: the primary probe (`UptimeRobot`), the
cross-check over the fallback URLs (`ServerDown`), the countdown arithmetic
(`getTimeRemaining`), the alert gate (`Sent`, `reset`) and the mail alert
(`SendEmailAlert`).

Everything the Go program reads from the outside world during one cycle is
collected in an `Env`: the outcome of every HTTP probe, every reading of the
wall clock and the outcome of the SMTP send.  The program text is then a pure
function of the URL list, the gate `Sent` and the `Env`.

Times are wall-clock readings in nanoseconds (Unix time), as `Int`.
-/

namespace Uptime

/-! Data model -/

/-- Outcome of `request(url)`: either `err != nil` (any transport failure,
including the redirect that `createClient` always rejects) or a response with
its `StatusCode`. -/
inductive Response where
  | error : Response
  | status (code : Nat) : Response
  deriving DecidableEq, Repr

/-- The Go `map[string]bool` returned by `ServerDown`, as an association list
with pairwise distinct keys in insertion order. `len` is `List.length`. -/
abbrev Evidence := List (String × Bool)

/-- Go map assignment `m[k] = v`: overwrite an existing key, else add it. -/
def mapSet (m : Evidence) (k : String) (v : Bool) : Evidence :=
  if m.any (fun p => p.1 == k) then
    m.map (fun p => if p.1 == k then (k, v) else p)
  else
    m ++ [(k, v)]

/-- Keys of the evidence map. -/
def keys (m : Evidence) : List String := m.map Prod.fst

/-- The Go struct `countdown`. -/
structure countdown where
  t : Int
  d : Int
  h : Int
  m : Int
  s : Int
  deriving DecidableEq, Repr

/-- One second, in nanoseconds (`time.Second`). -/
def second : Int := 1000000000

/-- Everything one `UptimeRobot` cycle reads from its environment. -/
structure Env where
  /-- Outcome of `request(URL[0])`. -/
  primary : Response
  /-- Reading of `time.Now()` at the start of `ServerDown`. -/
  start : Int
  /-- Reading of `time.Now()` inside `getTimeRemaining` at the `k`-th tick of
  `time.Tick(1 * time.Second)` (`k = 0` is the first tick). -/
  now : Nat → Int
  /-- Outcome of `request(URL[i])` in the pass after the `k`-th tick. -/
  probe : Nat → Nat → Response
  /-- How long `request(URL[i])` takes in the pass after the `k`-th tick,
  in nanoseconds. Only the timing statements read it. -/
  dur : Nat → Nat → Nat
  /-- Whether `smtp.SendMail` returns a nil error. -/
  smtpOk : Bool

/-! The clock -/

/-- Lower end of the timestamps that survive `t.Format(RFC3339)` followed by
`time.Parse`: `0000-01-01T00:00:00Z` in Unix seconds. -/
def rfc3339Min : Int := -62167219200

/-- Upper end: `9999-12-31T23:59:59Z` in Unix seconds. -/
def rfc3339Max : Int := 253402300799

/-- Lines 173-178 of `ServerDown`: `t := now + 30s`, then
`time.Parse(RFC3339, t.Format(...))`. The layout has no fractional seconds, so
the round trip drops the nanoseconds; a year that does not print as four
digits does not parse back and gives the `err != nil` branch (`none`). Years
are taken in UTC. -/
def deadline (start : Int) : Option Int :=
  let t := start + 30 * second
  let sec := t / second
  if rfc3339Min ≤ sec ∧ sec ≤ rfc3339Max then some (sec * second) else none

/-- The least `time.Duration`, `-1 << 63` nanoseconds. -/
def minDuration : Int := -9223372036854775808

/-- The greatest `time.Duration`, `1<<63 - 1` nanoseconds. -/
def maxDuration : Int := 9223372036854775807

/-- Go's `t.Sub(u)` on wall-clock readings: the difference in nanoseconds,
or the least or greatest `Duration` when the difference does not fit. -/
def timeSub (t u : Int) : Int :=
  if t - u < minDuration then minDuration
  else if maxDuration < t - u then maxDuration
  else t - u

/-- The Go function `getTimeRemaining(t)`, with the reading of `time.Now()`
as second argument. `int(difference.Seconds())` is taken as truncation toward
zero of the whole seconds: the float64 that `Seconds()` goes through gives
exactly that for differences below 2^22 s, may give one second more in
magnitude beyond, and never changes whether the value is positive, so the
test `t <= 0` of `ServerDown` is the same for every difference. Go's `/` and
`%` on `int` truncate toward zero as well. -/
def getTimeRemaining (t : Int) (currentTime : Int) : countdown :=
  let difference := timeSub t currentTime
  let total := Int.tdiv difference second
  let days := Int.tdiv total (60 * 60 * 24)
  let hours := Int.tmod (Int.tdiv total (60 * 60)) 24
  let minutes := Int.tmod (Int.tdiv total 60) 60
  let seconds := Int.tmod total 60
  { t := total, d := days, h := hours, m := minutes, s := seconds }

/-! The cross-check `ServerDown` -/

/-- The inner loop of `ServerDown`, `for i := 1; i < len(URL); i++`, from
index `i` on; the list argument is `URL[i:]` and `N` is `len(URL)`.
A transport error is logged and skipped with `continue`; a response with
`StatusCode > 399` is entered in the map; `TotalChecked++` follows every
response. -/
def innerLoop (N : Nat) (probe : Nat → Response) :
    List String → Nat → Evidence → Nat → Evidence × Nat
  | [], _, CrossCheck, TotalChecked => (CrossCheck, TotalChecked)
  | u :: us, i, CrossCheck, TotalChecked =>
    match probe i with
    | Response.error => innerLoop N probe us (i + 1) CrossCheck TotalChecked
    | Response.status code =>
      let CrossCheck := if code > 399 then mapSet CrossCheck u true else CrossCheck
      if N = i then (CrossCheck, TotalChecked)
      else innerLoop N probe us (i + 1) CrossCheck (TotalChecked + 1)

/-- One pass over the fallback URLs: the inner loop from `i = 1`. -/
def pass (URL : List String) (probe : Nat → Response)
    (CrossCheck : Evidence) (TotalChecked : Nat) : Evidence × Nat :=
  innerLoop URL.length probe (URL.drop 1) 1 CrossCheck TotalChecked

/-- What a finished cross-check hands back, with the number of passes it made
(the index of the tick at which the loop broke) kept for the statements. -/
structure Run where
  CrossCheck : Evidence
  TotalChecked : Nat
  passes : Nat
  deriving DecidableEq, Repr

/-- The loop `for range time.Tick(1 * time.Second)` of `ServerDown`, at tick
`k`. Each tick first compares the clock with the deadline `v`, then the
counter with `len(URL)`, then makes one pass. `fuel` bounds the number of
ticks looked at; `none` means the loop is still running after that many. -/
def tickLoop (URL : List String) (e : Env) (v : Int) :
    Nat → Nat → Evidence → Nat → Option Run
  | 0, _, _, _ => none
  | fuel + 1, k, CrossCheck, TotalChecked =>
    if (getTimeRemaining v (e.now k)).t ≤ 0 then
      some ⟨CrossCheck, TotalChecked, k⟩
    else if TotalChecked = URL.length then
      some ⟨CrossCheck, TotalChecked, k⟩
    else
      let r := pass URL (e.probe k) CrossCheck TotalChecked
      tickLoop URL e v fuel (k + 1) r.1 r.2

/-- The body of `ServerDown`, keeping the number of passes. -/
def crossCheck (URL : List String) (e : Env) (fuel : Nat) : Option Run :=
  match deadline e.start with
  | none => some ⟨[], 1, 0⟩
  | some v => tickLoop URL e v fuel 0 [] 1

/-- The Go function `ServerDown()`: the evidence map and the counter. -/
def ServerDown (URL : List String) (e : Env) (fuel : Nat) : Option (Evidence × Nat) :=
  (crossCheck URL e fuel).map (fun r => (r.CrossCheck, r.TotalChecked))

/-! The alert gate and `UptimeRobot` -/

/-- The Go function `reset()`: `Sent = 0`. -/
def reset (_Sent : Nat) : Nat := 0

/-- The lines `UptimeRobot` and `SendEmailAlert` write to the log. -/
inductive LogLine where
  /-- Line 146, error while sending request. -/
  | requestError : LogLine
  /-- Line 151, processing the other URL to check the status of the servers. -/
  | processingOthers : LogLine
  /-- Line 154, checked all URL, server down. -/
  | serverDown : LogLine
  /-- Line 159, email service disabled for 15 minutes. -/
  | emailDisabled : LogLine
  /-- Line 164, server is running, perhaps a problem with the primary url. -/
  | serverRunning : LogLine
  /-- Line 221, smtp error. -/
  | smtpError : LogLine
  /-- Line 224, sent. -/
  | sent : LogLine
  deriving DecidableEq, Repr

/-- The Go function `SendEmailAlert`: one call of `smtp.SendMail`; the value
is the line it logs. It returns nothing to its caller: a failed send is
logged and dropped. -/
def SendEmailAlert (smtpOk : Bool) : LogLine :=
  if smtpOk then LogLine.sent else LogLine.smtpError

/-- The two outcomes of the test `len(checkedMap) == CheckedCount-1`. -/
inductive Verdict where
  | FleetDown : Verdict
  | PrimaryFlaky : Verdict
  deriving DecidableEq, Repr

/-- The test of line 153 on what `ServerDown` returned. -/
def verdictOf (r : Evidence × Nat) : Verdict :=
  if (r.1.length : Int) = (r.2 : Int) - 1 then Verdict.FleetDown else Verdict.PrimaryFlaky

/-- What one call of `UptimeRobot` did. -/
structure Cycle where
  /-- The global `Sent` when the call ends. -/
  Sent : Nat
  /-- Whether `ServerDown` was called. -/
  crossChecked : Bool
  /-- The outcome of line 153, when the cross-check returned. -/
  verdict : Option Verdict
  /-- One entry per call of `SendEmailAlert`: whether the SMTP send succeeded. -/
  emails : List Bool
  /-- Lines written to the log by `UptimeRobot` and `SendEmailAlert`. -/
  log : List LogLine
  /-- Whether the call returned within the fuel given to `ServerDown`. -/
  returned : Bool
  deriving DecidableEq, Repr

/-- The Go function `UptimeRobot()`, from the global `Sent` it finds. -/
def UptimeRobot (URL : List String) (Sent : Nat) (e : Env) (fuel : Nat) : Cycle :=
  if URL.length > 0 then
    match e.primary with
    | Response.error =>
      ⟨Sent, false, none, [], [LogLine.requestError], true⟩
    | Response.status code =>
      if code > 399 then
        if URL.length > 1 then
          match ServerDown URL e fuel with
          | none =>
            ⟨Sent, true, none, [], [LogLine.processingOthers], false⟩
          | some (checkedMap, CheckedCount) =>
            if (checkedMap.length : Int) = (CheckedCount : Int) - 1 then
              if Sent = 0 then
                ⟨Sent + 1, true, some Verdict.FleetDown, [e.smtpOk],
                  [LogLine.processingOthers, LogLine.serverDown,
                   SendEmailAlert e.smtpOk, LogLine.emailDisabled], true⟩
              else
                ⟨Sent, true, some Verdict.FleetDown, [],
                  [LogLine.processingOthers, LogLine.serverDown], true⟩
            else
              ⟨Sent, true, some Verdict.PrimaryFlaky, [],
                [LogLine.processingOthers, LogLine.serverRunning], true⟩
        else ⟨Sent, false, none, [], [], true⟩
      else ⟨Sent, false, none, [], [], true⟩
  else ⟨Sent, false, none, [], [], true⟩

/-- A sequence of `UptimeRobot` calls with no `reset` in between, one `Env`
per call, threading the global `Sent`. A call that does not return ends the
sequence. -/
def runCycles (URL : List String) (fuel : Nat) : Nat → List Env → List Cycle
  | _, [] => []
  | Sent, e :: es =>
    let c := UptimeRobot URL Sent e fuel
    if c.returned then c :: runCycles URL fuel c.Sent es else [c]

/-- The value of `Sent` after a sequence of calls. -/
def finalSent (Sent : Nat) (cs : List Cycle) : Nat :=
  match cs.getLast? with
  | none => Sent
  | some c => c.Sent

/-- Number of `SendEmailAlert` calls in a sequence of cycles. -/
def alertCount (cs : List Cycle) : Nat :=
  (cs.map (fun c => c.emails.length)).sum

/-! Reading a run: which probes answered -/

/-- The fallback probes of one pass that returned an HTTP response, in the
order they were made, each with the URL probed and its status code. The list
argument is `URL[i:]`. -/
def passResponses (probe : Nat → Response) : List String → Nat → List (String × Nat)
  | [], _ => []
  | u :: us, i =>
    match probe i with
    | Response.error => passResponses probe us (i + 1)
    | Response.status code => (u, code) :: passResponses probe us (i + 1)

/-- The fallback probes of the first `n` passes that returned an HTTP
response. -/
def responses (URL : List String) (e : Env) : Nat → List (String × Nat)
  | 0 => []
  | n + 1 => responses URL e n ++ passResponses (e.probe n) (URL.drop 1) 1

/-- Entering a list of responses in the map: those with status above 399. -/
def record (m : Evidence) (rs : List (String × Nat)) : Evidence :=
  rs.foldl (fun m p => if p.2 > 399 then mapSet m p.1 true else m) m

/-- The responses with status above 399. -/
def unhealthy (rs : List (String × Nat)) : List (String × Nat) :=
  rs.filter (fun p => decide (p.2 > 399))

/-- The deadline has passed at tick `K`: `timeRemaining.t <= 0` there (or the
deadline could not be computed, and `ServerDown` returned at once). -/
def expired (e : Env) (K : Nat) : Prop :=
  match deadline e.start with
  | none => True
  | some v => (getTimeRemaining v (e.now K)).t ≤ 0

instance (e : Env) (K : Nat) : Decidable (expired e K) := by
  unfold expired
  cases deadline e.start with
  | none => exact isTrue trivial
  | some v => exact inferInstanceAs (Decidable ((getTimeRemaining v (e.now K)).t ≤ 0))

/-! Timing of a run -/

/-- The timeout of the HTTP client of `createClient`, `time.Second * 10`. -/
def clientTimeout : Int := 10 * second

/-- Time taken by the probes of `URL[1]` to `URL[n]` in the pass after tick
`k`. -/
def probeTime (e : Env) (k n : Nat) : Int :=
  ((List.range n).map (fun j => (e.dur k (j + 1) : Int))).sum

/-- Time taken by the whole pass after tick `k`. -/
def passDur (URL : List String) (e : Env) (k : Nat) : Int :=
  probeTime e k (URL.length - 1)

/-- When the probe of `URL[i]` starts in the pass after tick `k`: the tick is
read, then `URL[1]` to `URL[i-1]` are probed one after the other. -/
def probeStart (e : Env) (k i : Nat) : Int :=
  e.now k + probeTime e k (i - 1)

/-- When `ServerDown` returns: at the tick where its loop breaks, or at once
when the deadline could not be computed. -/
def endTime (e : Env) (r : Run) : Int :=
  match deadline e.start with
  | none => e.start
  | some _ => e.now r.passes

/-- The `request` calls one run of the inner loop of `ServerDown` makes, as
the indices `i` of `URL[i]`: line 191 is the first statement of every
iteration, before any `continue` or `break`, and no statement of the loop
reads the clock. The list argument is `URL[i:]` and `N` is `len(URL)`. -/
def probesOfPass (N : Nat) (probe : Nat → Response) : List String → Nat → List Nat
  | [], _ => []
  | _ :: us, i =>
    i :: (match probe i with
      | Response.error => probesOfPass N probe us (i + 1)
      | Response.status _ => if N = i then [] else probesOfPass N probe us (i + 1))

/-- A clock that agrees with the probe durations and with the one-second
ticker of line 181, up to a latency `lat` for each step. The ticker is
created after `start` is read and its first tick comes one period later, so
the first tick is read between one second and one second plus `lat` after
the start. The next tick is read when the pass is over, at most one period
plus `lat` later. The channel holds one tick, so two ticks further on at
least one period less `lat` has gone by. A probe returns at most `lat` after
the client timeout. -/
structure Timing (URL : List String) (e : Env) (lat : Int) : Prop where
  first_lo : e.start + second ≤ e.now 0
  first_hi : e.now 0 ≤ e.start + second + lat
  next_lo : ∀ k, e.now k + passDur URL e k ≤ e.now (k + 1)
  next_hi : ∀ k, e.now (k + 1) ≤ e.now k + passDur URL e k + second + lat
  period : ∀ k, e.now k + second ≤ e.now (k + 2) + lat
  timeout : ∀ k i, (e.dur k i : Int) ≤ clientTimeout + lat

/-! The verdict in the words of the specification -/

/-- The fallback targets reached in the window: those whose probe returned
an HTTP response. -/
def reached (URL : List String) (e : Env) (r : Run) : List String :=
  (responses URL e r.passes).map Prod.fst

/-- The verdict as the specification words it: at least one fallback target
was reached within the window, and every fallback target reached was
recorded unhealthy. -/
def specFleetDown (URL : List String) (e : Env) (r : Run) : Prop :=
  reached URL e r ≠ [] ∧ ∀ u ∈ reached URL e r, (u, true) ∈ r.CrossCheck

instance (URL : List String) (e : Env) (r : Run) : Decidable (specFleetDown URL e r) :=
  inferInstanceAs
    (Decidable (reached URL e r ≠ [] ∧ ∀ u ∈ reached URL e r, (u, true) ∈ r.CrossCheck))

/-! Sample environments -/

/-- Primary answers 500; every fallback probe fails with a transport error;
ticks are read 10 s, 20 s, 30 s, ... after the start. -/
def envAllError : Env where
  primary := Response.status 500
  start := 0
  now := fun k => (10 * ((k : Int) + 1)) * second
  probe := fun _ _ => Response.error
  dur := fun _ _ => 0
  smtpOk := true

/-- Primary answers 500; the probe of `URL[1]` fails with a transport error
and every other fallback answers 500; the first tick is read after 1 s, the
next after 31 s. -/
def envFirstError : Env where
  primary := Response.status 500
  start := 0
  now := fun k => (1 + 30 * (k : Int)) * second
  probe := fun _ i => if i = 1 then Response.error else Response.status 500
  dur := fun _ _ => 0
  smtpOk := true

/-- As `envFirstError`, but `URL[1]` answers 500 as well. -/
def envAll500 : Env where
  primary := Response.status 500
  start := 0
  now := fun k => (1 + 30 * (k : Int)) * second
  probe := fun _ _ => Response.status 500
  dur := fun _ _ => 0
  smtpOk := true

/-- Primary answers 503; `URL[1]` answers 200 and every other fallback
answers 500. -/
def envOneHealthy : Env where
  primary := Response.status 503
  start := 0
  now := fun k => (1 + 30 * (k : Int)) * second
  probe := fun _ i => if i = 1 then Response.status 200 else Response.status 500
  dur := fun _ _ => 0
  smtpOk := true

/-- Primary answers 200. -/
def envHealthy : Env where
  primary := Response.status 200
  start := 0
  now := fun k => (1 + (k : Int)) * second
  probe := fun _ _ => Response.status 200
  dur := fun _ _ => 0
  smtpOk := true

/-- Every fallback probe runs into the 10 s client timeout. The first tick
is read after 1 s; each pass over five fallbacks takes 50 s, and the tick
that came in meanwhile is read as soon as the pass is over. -/
def envSlow : Env where
  primary := Response.status 500
  start := 0
  now := fun k => (1 + 50 * (k : Int)) * second
  probe := fun _ _ => Response.error
  dur := fun _ _ => 10000000000
  smtpOk := true

/-- A clock with latency: the first tick is read 1.0007 s after the start;
every fallback probe runs into the client timeout and returns after
10.0001 s; the tick that came in during a pass is read 0.4 ms after the pass
is over. -/
def envLate : Env where
  primary := Response.status 500
  start := 1700000000123456789
  now := fun k => 1700000000123456789 + 1000700000 + 50000900000 * (k : Int)
  probe := fun _ _ => Response.error
  dur := fun _ _ => 10000100000
  smtpOk := true

/-- One millisecond, in nanoseconds. -/
def millisecond : Int := 1000000

/-- Primary answers 500; the probe of `URL[1]` fails with a transport error
in the first pass and answers 500 afterwards, every other fallback answers
500; ticks are read 1 s, 11 s, 21 s, 31 s after the start. -/
def envRetry : Env where
  primary := Response.status 500
  start := 0
  now := fun k => (1 + 10 * (k : Int)) * second
  probe := fun k i => if k = 0 ∧ i = 1 then Response.error else Response.status 500
  dur := fun _ _ => 0
  smtpOk := true

/-- A primary and five fallbacks. -/
def urls6 : List String := ["A", "B", "C", "D", "E", "F"]

/-- A primary and two fallbacks. -/
def urls3 : List String := ["A", "B", "C"]

/-- A primary and one fallback. -/
def urls2 : List String := ["A", "B"]

/-! The evidence map -/

theorem mapSet_any_iff (m : Evidence) (k : String) :
    m.any (fun p => p.1 == k) = true ↔ k ∈ keys m := by
  simp only [keys, List.any_eq_true, List.mem_map, beq_iff_eq]

theorem keys_mapSet_of_mem {m : Evidence} {k : String} (v : Bool) (h : k ∈ keys m) :
    keys (mapSet m k v) = keys m := by
  unfold mapSet
  rw [if_pos ((mapSet_any_iff m k).2 h)]
  simp only [keys, List.map_map]
  apply List.map_congr_left
  intro p _
  by_cases hp : p.1 = k
  · simp [hp]
  · simp [hp]

theorem mapSet_of_not_mem {m : Evidence} {k : String} (v : Bool) (h : k ∉ keys m) :
    mapSet m k v = m ++ [(k, v)] := by
  unfold mapSet
  rw [if_neg (fun hc => h ((mapSet_any_iff m k).1 hc))]

theorem keys_mapSet (m : Evidence) (k : String) (v : Bool) :
    keys (mapSet m k v) = if k ∈ keys m then keys m else keys m ++ [k] := by
  by_cases h : k ∈ keys m
  · rw [if_pos h, keys_mapSet_of_mem v h]
  · rw [if_neg h, mapSet_of_not_mem v h]; simp [keys]

theorem length_mapSet (m : Evidence) (k : String) (v : Bool) :
    (mapSet m k v).length = if k ∈ keys m then m.length else m.length + 1 := by
  have h := congrArg List.length (keys_mapSet m k v)
  by_cases hk : k ∈ keys m
  · rw [if_pos hk] at h ⊢
    simpa [keys] using h
  · rw [if_neg hk] at h ⊢
    simpa [keys] using h

theorem mem_keys_mapSet (m : Evidence) (k u : String) (v : Bool) :
    u ∈ keys (mapSet m k v) ↔ u ∈ keys m ∨ u = k := by
  rw [keys_mapSet]
  by_cases h : k ∈ keys m
  · rw [if_pos h]
    constructor
    · intro hu; exact Or.inl hu
    · rintro (hu | hu)
      · exact hu
      · rw [hu]; exact h
  · rw [if_neg h]; simp

theorem record_nil (m : Evidence) : record m [] = m := rfl

theorem record_cons (m : Evidence) (p : String × Nat) (rs : List (String × Nat)) :
    record m (p :: rs) = record (if p.2 > 399 then mapSet m p.1 true else m) rs := rfl

theorem record_append (m : Evidence) (rs ss : List (String × Nat)) :
    record m (rs ++ ss) = record (record m rs) ss := by
  simp [record, List.foldl_append]

theorem unhealthy_cons (p : String × Nat) (rs : List (String × Nat)) :
    unhealthy (p :: rs) = if p.2 > 399 then p :: unhealthy rs else unhealthy rs := by
  unfold unhealthy
  by_cases h : p.2 > 399
  · simp [h]
  · simp [h]

theorem unhealthy_length_le (rs : List (String × Nat)) :
    (unhealthy rs).length ≤ rs.length :=
  List.length_filter_le _ _

/-- The map grows by at most one entry per response above 399. -/
theorem record_length_le (m : Evidence) (rs : List (String × Nat)) :
    (record m rs).length ≤ m.length + (unhealthy rs).length := by
  induction rs generalizing m with
  | nil => simp [record_nil, unhealthy]
  | cons p rs ih =>
    rw [record_cons, unhealthy_cons]
    by_cases h : p.2 > 399
    · rw [if_pos h, if_pos h]
      have h1 := ih (mapSet m p.1 true)
      have h2 := length_mapSet m p.1 true
      have h3 : (mapSet m p.1 true).length ≤ m.length + 1 := by
        rw [h2]; split <;> omega
      simp only [List.length_cons]
      omega
    · rw [if_neg h, if_neg h]
      exact ih m

/-- A key of the map is a key it had before or the URL of a response above
399. -/
theorem mem_keys_record (m : Evidence) (rs : List (String × Nat)) (u : String) :
    u ∈ keys (record m rs) ↔ u ∈ keys m ∨ ∃ s, (u, s) ∈ rs ∧ 399 < s := by
  induction rs generalizing m with
  | nil => simp [record_nil]
  | cons p rs ih =>
    rw [record_cons, ih]
    obtain ⟨a, c⟩ := p
    by_cases h : c > 399
    · simp only [if_pos h, mem_keys_mapSet, List.mem_cons, Prod.mk.injEq]
      constructor
      · rintro ((hu | hu) | ⟨s, hs, h399⟩)
        · exact Or.inl hu
        · exact Or.inr ⟨c, Or.inl ⟨hu, rfl⟩, h⟩
        · exact Or.inr ⟨s, Or.inr hs, h399⟩
      · rintro (hu | ⟨s, (⟨hu, _⟩ | hs), h399⟩)
        · exact Or.inl (Or.inl hu)
        · exact Or.inl (Or.inr hu)
        · exact Or.inr ⟨s, hs, h399⟩
    · simp only [if_neg h, List.mem_cons, Prod.mk.injEq]
      constructor
      · rintro (hu | ⟨s, hs, h399⟩)
        · exact Or.inl hu
        · exact Or.inr ⟨s, Or.inr hs, h399⟩
      · rintro (hu | ⟨s, (⟨_, hs⟩ | hs), h399⟩)
        · exact Or.inl hu
        · exact absurd (hs ▸ h399) h
        · exact Or.inr ⟨s, hs, h399⟩

/-- When no URL answers twice and none of them is in the map yet, every
response above 399 adds an entry. -/
theorem record_length_of_nodup (m : Evidence) (rs : List (String × Nat))
    (hnd : (rs.map Prod.fst).Nodup) (hdis : ∀ u ∈ rs.map Prod.fst, u ∉ keys m) :
    (record m rs).length = m.length + (unhealthy rs).length := by
  induction rs generalizing m with
  | nil => simp [record_nil, unhealthy]
  | cons p rs ih =>
    rw [record_cons, unhealthy_cons]
    simp only [List.map_cons, List.nodup_cons] at hnd
    have hp : p.1 ∉ keys m := hdis p.1 (by simp)
    by_cases h : p.2 > 399
    · rw [if_pos h, if_pos h]
      have hlen := length_mapSet m p.1 true
      rw [if_neg hp] at hlen
      rw [ih (mapSet m p.1 true) hnd.2, hlen]
      · simp only [List.length_cons]; omega
      · intro u hu hmem
        rw [mem_keys_mapSet] at hmem
        rcases hmem with hmem | hmem
        · exact hdis u (by simp only [List.map_cons, List.mem_cons]; exact Or.inr hu) hmem
        · exact hnd.1 (hmem ▸ hu)
    · rw [if_neg h, if_neg h]
      exact ih m hnd.2 (fun u hu => hdis u (by simp only [List.map_cons, List.mem_cons]; exact Or.inr hu))

/-! The inner loop and the tick loop -/

/-- The inner loop enters exactly the responses it got, in order, and counts
each of them once; a transport error changes neither the map nor the
counter. The guard `len(URL) == i` never fires: `i` stays below `len(URL)`. -/
theorem innerLoop_eq (N : Nat) (probe : Nat → Response) (us : List String) (i : Nat)
    (m : Evidence) (c : Nat) (h : i + us.length ≤ N) :
    innerLoop N probe us i m c
      = (record m (passResponses probe us i), c + (passResponses probe us i).length) := by
  induction us generalizing i m c with
  | nil => simp [innerLoop, passResponses, record_nil]
  | cons u us ih =>
    simp only [List.length_cons] at h
    unfold innerLoop passResponses
    cases hp : probe i with
    | error =>
      simp only
      exact ih (i + 1) m c (by omega)
    | status code =>
      simp only
      rw [if_neg (by omega : ¬ N = i), ih (i + 1) _ (c + 1) (by omega), record_cons]
      simp only [List.length_cons]
      congr 1
      omega

theorem pass_eq (URL : List String) (probe : Nat → Response) (m : Evidence) (c : Nat) :
    pass URL probe m c
      = (record m (passResponses probe (URL.drop 1) 1),
         c + (passResponses probe (URL.drop 1) 1).length) := by
  unfold pass
  cases URL with
  | nil => simp [innerLoop, passResponses, record_nil]
  | cons a us =>
    apply innerLoop_eq
    simp only [List.drop_succ_cons, List.drop_zero, List.length_cons]
    omega

/-- A probe of the pass that returned a response is in `passResponses`. -/
theorem passResponses_mem (probe : Nat → Response) (us : List String) (i j s : Nat)
    (hij : i ≤ j) (hj : j < i + us.length) (hp : probe j = Response.status s) :
    ∃ u, (u, s) ∈ passResponses probe us i := by
  induction us generalizing i with
  | nil => simp only [List.length_nil] at hj; omega
  | cons u us ih =>
    simp only [List.length_cons] at hj
    unfold passResponses
    by_cases hji : j = i
    · subst hji
      rw [hp]
      exact ⟨u, by simp⟩
    · obtain ⟨w, hw⟩ := ih (i + 1) (by omega) (by omega)
      cases hpi : probe i with
      | error => exact ⟨w, hw⟩
      | status code => exact ⟨w, by simp only [List.mem_cons]; exact Or.inr hw⟩

/-- A pass in which every probe failed has no responses. -/
theorem passResponses_all_error (probe : Nat → Response) (us : List String) (i : Nat)
    (h : ∀ j, i ≤ j → j < i + us.length → probe j = Response.error) :
    passResponses probe us i = [] := by
  induction us generalizing i with
  | nil => rfl
  | cons u us ih =>
    unfold passResponses
    rw [h i (by omega) (by simp only [List.length_cons]; omega)]
    simp only
    exact ih (i + 1) (fun j h1 h2 => h j (by omega) (by simp only [List.length_cons]; omega))

theorem responses_mono (URL : List String) (e : Env) {a b : Nat} (hab : a ≤ b)
    (p : String × Nat) (hp : p ∈ responses URL e a) : p ∈ responses URL e b := by
  induction hab with
  | refl => exact hp
  | step _ ih =>
    unfold responses
    exact List.mem_append_left _ ih

/-- A probe made in one of the first `n` passes that returned a response is
in `responses URL e n`. -/
theorem responses_mem (URL : List String) (e : Env) (n k i s : Nat)
    (hk : k < n) (hi1 : 1 ≤ i) (hi : i < URL.length)
    (hp : e.probe k i = Response.status s) :
    ∃ u, (u, s) ∈ responses URL e n := by
  have hlen : (URL.drop 1).length = URL.length - 1 := by simp
  obtain ⟨u, hu⟩ := passResponses_mem (e.probe k) (URL.drop 1) 1 i s hi1 (by omega) hp
  refine ⟨u, responses_mono URL e (Nat.succ_le_of_lt hk) _ ?_⟩
  unfold responses
  exact List.mem_append_right _ hu

theorem responses_all_error (URL : List String) (e : Env) (n : Nat)
    (h : ∀ k i, k < n → 1 ≤ i → i < URL.length → e.probe k i = Response.error) :
    responses URL e n = [] := by
  induction n with
  | zero => rfl
  | succ n ih =>
    unfold responses
    rw [ih (fun k i hk => h k i (by omega))]
    have hlen : (URL.drop 1).length = URL.length - 1 := by simp
    rw [passResponses_all_error (e.probe n) (URL.drop 1) 1
      (fun j h1 h2 => h n j (by omega) h1 (by omega))]
    rfl

/-- What the tick loop hands back when it returns: it has made `r.passes`
passes, every tick before the last found the window open and the counter
different from `len(URL)`, and the last one found the window closed or the
counter equal to `len(URL)`. -/
theorem tickLoop_spec (URL : List String) (e : Env) (v : Int) (fuel k : Nat)
    (m : Evidence) (c : Nat) (r : Run)
    (hm : m = record [] (responses URL e k))
    (hc : c = 1 + (responses URL e k).length)
    (h : tickLoop URL e v fuel k m c = some r) :
    r.CrossCheck = record [] (responses URL e r.passes)
      ∧ r.TotalChecked = 1 + (responses URL e r.passes).length
      ∧ k ≤ r.passes ∧ r.passes < k + fuel
      ∧ (∀ j, k ≤ j → j < r.passes → 0 < (getTimeRemaining v (e.now j)).t)
      ∧ ((getTimeRemaining v (e.now r.passes)).t ≤ 0 ∨ r.TotalChecked = URL.length) := by
  induction fuel generalizing k m c with
  | zero => simp [tickLoop] at h
  | succ fuel ih =>
    unfold tickLoop at h
    by_cases h1 : (getTimeRemaining v (e.now k)).t ≤ 0
    · rw [if_pos h1] at h
      cases h
      refine ⟨hm, hc, le_refl _, ?_, ?_, Or.inl h1⟩
      · show k < k + (fuel + 1); omega
      · intro j a b
        have b2 : j < k := b
        omega
    · rw [if_neg h1] at h
      by_cases h2 : c = URL.length
      · rw [if_pos h2] at h
        cases h
        refine ⟨hm, hc, le_refl _, ?_, ?_, Or.inr h2⟩
        · show k < k + (fuel + 1); omega
        · intro j a b
          have b2 : j < k := b
          omega
      · rw [if_neg h2] at h
        simp only [pass_eq] at h
        have := ih (k + 1) _ _
          (by rw [hm, ← record_append]; rfl)
          (by rw [hc]; simp only [responses, List.length_append]; omega) h
        obtain ⟨a1, a2, a3, a4, a5, a6⟩ := this
        refine ⟨a1, a2, by omega, by omega, ?_, a6⟩
        intro j hj1 hj2
        by_cases hjk : j = k
        · subst hjk; omega
        · exact a5 j (by omega) hj2

/-- The tick loop returns once a tick finds the window closed: if the
deadline has passed at tick `K`, `K + 1 - k` ticks of fuel are enough. -/
theorem tickLoop_returns (URL : List String) (e : Env) (v : Int) (K fuel k : Nat)
    (m : Evidence) (c : Nat)
    (hK : (getTimeRemaining v (e.now K)).t ≤ 0) (hk : k ≤ K) (hf : K < k + fuel) :
    ∃ r, tickLoop URL e v fuel k m c = some r ∧ r.passes ≤ K := by
  induction fuel generalizing k m c with
  | zero => omega
  | succ fuel ih =>
    unfold tickLoop
    by_cases h1 : (getTimeRemaining v (e.now k)).t ≤ 0
    · rw [if_pos h1]; exact ⟨_, rfl, hk⟩
    · rw [if_neg h1]
      by_cases h2 : c = URL.length
      · rw [if_pos h2]; exact ⟨_, rfl, hk⟩
      · rw [if_neg h2]
        have hne : k ≠ K := fun hkK => h1 (hkK ▸ hK)
        exact ih (k + 1) _ _ (by omega) (by omega)

/-- The map and the counter `ServerDown` returns, read off the run. -/
theorem crossCheck_spec (URL : List String) (e : Env) (fuel : Nat) (r : Run)
    (h : crossCheck URL e fuel = some r) :
    r.CrossCheck = record [] (responses URL e r.passes)
      ∧ r.TotalChecked = 1 + (responses URL e r.passes).length := by
  unfold crossCheck at h
  cases hd : deadline e.start with
  | none =>
    rw [hd] at h
    cases h
    exact ⟨rfl, rfl⟩
  | some v =>
    rw [hd] at h
    have := tickLoop_spec URL e v fuel 0 [] 1 r rfl rfl h
    exact ⟨this.1, this.2.1⟩

/-- The cross-check returns once a tick finds the window closed. -/
theorem crossCheck_returns (URL : List String) (e : Env) (K fuel : Nat)
    (hK : expired e K) (hf : K < fuel) :
    ∃ r, crossCheck URL e fuel = some r ∧ r.passes ≤ K := by
  unfold crossCheck
  cases hd : deadline e.start with
  | none => exact ⟨_, rfl, Nat.zero_le _⟩
  | some v =>
    unfold expired at hK
    rw [hd] at hK
    exact tickLoop_returns URL e v K fuel 0 [] 1 hK (Nat.zero_le _) (by omega)

theorem ServerDown_eq (URL : List String) (e : Env) (fuel : Nat) (r : Run)
    (h : crossCheck URL e fuel = some r) :
    ServerDown URL e fuel = some (r.CrossCheck, r.TotalChecked) := by
  simp [ServerDown, h]

/-! One cycle of `UptimeRobot` -/

/-- The cycle when the primary probe failed with a transport error. -/
theorem UptimeRobot_primary_error (URL : List String) (Sent : Nat) (e : Env) (fuel : Nat)
    (hp : e.primary = Response.error) :
    UptimeRobot URL Sent e fuel
      = if URL.length > 0 then ⟨Sent, false, none, [], [LogLine.requestError], true⟩
        else ⟨Sent, false, none, [], [], true⟩ := by
  unfold UptimeRobot
  rw [hp]

/-- The cycle when the primary probe answered below 400, or there is no
fallback. -/
theorem UptimeRobot_quiet (URL : List String) (Sent : Nat) (e : Env) (fuel code : Nat)
    (hp : e.primary = Response.status code) (h : ¬ (399 < code ∧ 1 < URL.length)) :
    UptimeRobot URL Sent e fuel = ⟨Sent, false, none, [], [], true⟩ := by
  unfold UptimeRobot
  rw [hp]
  by_cases h0 : URL.length > 0
  · rw [if_pos h0]
    simp only
    by_cases h1 : code > 399
    · rw [if_pos h1, if_neg (fun h2 => h ⟨h1, h2⟩)]
    · rw [if_neg h1]
  · rw [if_neg h0]

/-- The cycle when the primary probe answered above 399 and there is a
fallback: the cross-check runs and line 153 decides. -/
theorem UptimeRobot_crossCheck (URL : List String) (Sent : Nat) (e : Env) (fuel code : Nat)
    (hp : e.primary = Response.status code) (hc : 399 < code) (hN : 1 < URL.length) :
    UptimeRobot URL Sent e fuel =
      match ServerDown URL e fuel with
      | none => ⟨Sent, true, none, [], [LogLine.processingOthers], false⟩
      | some r =>
        if verdictOf r = Verdict.FleetDown then
          if Sent = 0 then
            ⟨Sent + 1, true, some Verdict.FleetDown, [e.smtpOk],
              [LogLine.processingOthers, LogLine.serverDown,
               SendEmailAlert e.smtpOk, LogLine.emailDisabled], true⟩
          else
            ⟨Sent, true, some Verdict.FleetDown, [],
              [LogLine.processingOthers, LogLine.serverDown], true⟩
        else
          ⟨Sent, true, some Verdict.PrimaryFlaky, [],
            [LogLine.processingOthers, LogLine.serverRunning], true⟩ := by
  unfold UptimeRobot
  rw [hp]
  simp only
  rw [if_pos (by omega : URL.length > 0), if_pos hc, if_pos hN]
  cases hs : ServerDown URL e fuel with
  | none => rfl
  | some r =>
    obtain ⟨m, c⟩ := r
    simp only [verdictOf]
    by_cases hv : (m.length : Int) = (c : Int) - 1
    · simp [hv]
    · simp [hv]

/-- The three kinds of cycle: no cross-check; a cross-check still running;
a cross-check that returned `r`, with the verdict of line 153. -/
theorem UptimeRobot_cases (URL : List String) (Sent : Nat) (e : Env) (fuel : Nat) :
    UptimeRobot URL Sent e fuel = ⟨Sent, false, none, [], [LogLine.requestError], true⟩
    ∨ UptimeRobot URL Sent e fuel = ⟨Sent, false, none, [], [], true⟩
    ∨ UptimeRobot URL Sent e fuel = ⟨Sent, true, none, [], [LogLine.processingOthers], false⟩
    ∨ UptimeRobot URL Sent e fuel
        = ⟨Sent, true, some Verdict.PrimaryFlaky, [],
            [LogLine.processingOthers, LogLine.serverRunning], true⟩
    ∨ (Sent ≠ 0 ∧ UptimeRobot URL Sent e fuel
        = ⟨Sent, true, some Verdict.FleetDown, [],
            [LogLine.processingOthers, LogLine.serverDown], true⟩)
    ∨ (Sent = 0 ∧ UptimeRobot URL Sent e fuel
        = ⟨Sent + 1, true, some Verdict.FleetDown, [e.smtpOk],
            [LogLine.processingOthers, LogLine.serverDown,
             SendEmailAlert e.smtpOk, LogLine.emailDisabled], true⟩) := by
  cases hp : e.primary with
  | error =>
    rw [UptimeRobot_primary_error URL Sent e fuel hp]
    by_cases h0 : URL.length > 0
    · rw [if_pos h0]; exact Or.inl rfl
    · rw [if_neg h0]; exact Or.inr (Or.inl rfl)
  | status code =>
    by_cases h : 399 < code ∧ 1 < URL.length
    · rw [UptimeRobot_crossCheck URL Sent e fuel code hp h.1 h.2]
      cases hs : ServerDown URL e fuel with
      | none => exact Or.inr (Or.inr (Or.inl rfl))
      | some r =>
        simp only
        by_cases hv : verdictOf r = Verdict.FleetDown
        · rw [if_pos hv]
          by_cases h0 : Sent = 0
          · rw [if_pos h0]; exact Or.inr (Or.inr (Or.inr (Or.inr (Or.inr ⟨h0, rfl⟩))))
          · rw [if_neg h0]; exact Or.inr (Or.inr (Or.inr (Or.inr (Or.inl ⟨h0, rfl⟩))))
        · rw [if_neg hv]; exact Or.inr (Or.inr (Or.inr (Or.inl rfl)))
    · rw [UptimeRobot_quiet URL Sent e fuel code hp h]
      exact Or.inr (Or.inl rfl)

/-- The verdict of a cycle does not depend on the gate. -/
theorem UptimeRobot_verdict_gate (URL : List String) (s s' : Nat) (e : Env) (fuel : Nat) :
    (UptimeRobot URL s e fuel).verdict = (UptimeRobot URL s' e fuel).verdict
      ∧ (UptimeRobot URL s e fuel).returned = (UptimeRobot URL s' e fuel).returned := by
  cases hp : e.primary with
  | error =>
    rw [UptimeRobot_primary_error URL s e fuel hp, UptimeRobot_primary_error URL s' e fuel hp]
    split <;> exact ⟨rfl, rfl⟩
  | status code =>
    by_cases h : 399 < code ∧ 1 < URL.length
    · rw [UptimeRobot_crossCheck URL s e fuel code hp h.1 h.2,
        UptimeRobot_crossCheck URL s' e fuel code hp h.1 h.2]
      cases hs : ServerDown URL e fuel with
      | none => exact ⟨rfl, rfl⟩
      | some r =>
        simp only
        by_cases hv : verdictOf r = Verdict.FleetDown
        · rw [if_pos hv, if_pos hv]
          constructor <;> split <;> split <;> rfl
        · rw [if_neg hv, if_neg hv]
          exact ⟨rfl, rfl⟩
    · rw [UptimeRobot_quiet URL s e fuel code hp h, UptimeRobot_quiet URL s' e fuel code hp h]
      exact ⟨rfl, rfl⟩

/-- A cycle that finds the gate closed sends nothing and leaves it closed. -/
theorem UptimeRobot_gate_closed (URL : List String) (Sent : Nat) (e : Env) (fuel : Nat)
    (h : Sent ≠ 0) :
    (UptimeRobot URL Sent e fuel).emails = [] ∧ (UptimeRobot URL Sent e fuel).Sent = Sent := by
  rcases UptimeRobot_cases URL Sent e fuel with h1 | h1 | h1 | h1 | ⟨_, h1⟩ | ⟨h0, _⟩
  · rw [h1]; exact ⟨rfl, rfl⟩
  · rw [h1]; exact ⟨rfl, rfl⟩
  · rw [h1]; exact ⟨rfl, rfl⟩
  · rw [h1]; exact ⟨rfl, rfl⟩
  · rw [h1]; exact ⟨rfl, rfl⟩
  · exact absurd h0 h

/-- A cycle that reaches FleetDown with the gate open sends once and closes
the gate. -/
theorem UptimeRobot_gate_open (URL : List String) (e : Env) (fuel : Nat)
    (h : (UptimeRobot URL 0 e fuel).verdict = some Verdict.FleetDown) :
    UptimeRobot URL 0 e fuel
      = ⟨1, true, some Verdict.FleetDown, [e.smtpOk],
          [LogLine.processingOthers, LogLine.serverDown,
           SendEmailAlert e.smtpOk, LogLine.emailDisabled], true⟩ := by
  rcases UptimeRobot_cases URL 0 e fuel with h1 | h1 | h1 | h1 | ⟨h0, _⟩ | ⟨_, h1⟩
  · rw [h1] at h; cases h
  · rw [h1] at h; cases h
  · rw [h1] at h; cases h
  · rw [h1] at h; cases h
  · exact absurd rfl h0
  · exact h1

/-- A cycle that does not reach FleetDown sends nothing and leaves the gate
as it was. -/
theorem UptimeRobot_no_alert (URL : List String) (Sent : Nat) (e : Env) (fuel : Nat)
    (h : (UptimeRobot URL Sent e fuel).verdict ≠ some Verdict.FleetDown) :
    (UptimeRobot URL Sent e fuel).emails = [] ∧ (UptimeRobot URL Sent e fuel).Sent = Sent := by
  rcases UptimeRobot_cases URL Sent e fuel with h1 | h1 | h1 | h1 | ⟨_, h1⟩ | ⟨_, h1⟩
  · rw [h1]; exact ⟨rfl, rfl⟩
  · rw [h1]; exact ⟨rfl, rfl⟩
  · rw [h1]; exact ⟨rfl, rfl⟩
  · rw [h1]; exact ⟨rfl, rfl⟩
  · rw [h1] at h; exact absurd rfl h
  · rw [h1] at h; exact absurd rfl h

/-- Every cycle sends at most once, and after a send the gate is closed. -/
theorem UptimeRobot_emails_le (URL : List String) (Sent : Nat) (e : Env) (fuel : Nat) :
    ((UptimeRobot URL Sent e fuel).emails = [] ∧ (UptimeRobot URL Sent e fuel).Sent = Sent)
      ∨ ((UptimeRobot URL Sent e fuel).emails.length = 1
          ∧ (UptimeRobot URL Sent e fuel).Sent ≠ 0) := by
  rcases UptimeRobot_cases URL Sent e fuel with h1 | h1 | h1 | h1 | ⟨_, h1⟩ | ⟨_, h1⟩
  · rw [h1]; exact Or.inl ⟨rfl, rfl⟩
  · rw [h1]; exact Or.inl ⟨rfl, rfl⟩
  · rw [h1]; exact Or.inl ⟨rfl, rfl⟩
  · rw [h1]; exact Or.inl ⟨rfl, rfl⟩
  · rw [h1]; exact Or.inl ⟨rfl, rfl⟩
  · rw [h1]; exact Or.inr ⟨rfl, Nat.succ_ne_zero _⟩

/-! Sequences of cycles -/

theorem alertCount_nil : alertCount [] = 0 := rfl

theorem alertCount_cons (c : Cycle) (cs : List Cycle) :
    alertCount (c :: cs) = c.emails.length + alertCount cs := by
  simp [alertCount]

theorem finalSent_cons (Sent : Nat) (c : Cycle) (cs : List Cycle) :
    finalSent Sent (c :: cs) = finalSent c.Sent cs := by
  cases cs with
  | nil => rfl
  | cons d ds =>
    simp only [finalSent, List.getLast?_cons_cons]
    rw [List.getLast?_eq_getLast _ (List.cons_ne_nil d ds)]

theorem runCycles_cons (URL : List String) (fuel Sent : Nat) (e : Env) (es : List Env) :
    runCycles URL fuel Sent (e :: es)
      = if (UptimeRobot URL Sent e fuel).returned then
          UptimeRobot URL Sent e fuel :: runCycles URL fuel (UptimeRobot URL Sent e fuel).Sent es
        else [UptimeRobot URL Sent e fuel] := rfl

/-- With the gate closed and no reset, no cycle of the sequence sends. -/
theorem runCycles_gate_closed (URL : List String) (fuel Sent : Nat) (es : List Env)
    (h : Sent ≠ 0) :
    alertCount (runCycles URL fuel Sent es) = 0
      ∧ finalSent Sent (runCycles URL fuel Sent es) = Sent := by
  induction es with
  | nil => exact ⟨rfl, rfl⟩
  | cons e es ih =>
    have hc := UptimeRobot_gate_closed URL Sent e fuel h
    rw [runCycles_cons]
    split
    · rw [alertCount_cons, finalSent_cons, hc.2, hc.1]
      exact ⟨by simpa using ih.1, ih.2⟩
    · rw [alertCount_cons, finalSent_cons, hc.1]
      exact ⟨rfl, hc.2⟩

/-- Without a reset, a sequence of cycles sends at most once. -/
theorem runCycles_alertCount_le (URL : List String) (fuel Sent : Nat) (es : List Env) :
    alertCount (runCycles URL fuel Sent es) ≤ 1 := by
  induction es generalizing Sent with
  | nil => simp [runCycles, alertCount]
  | cons e es ih =>
    rw [runCycles_cons]
    rcases UptimeRobot_emails_le URL Sent e fuel with ⟨h1, _⟩ | ⟨h1, h2⟩
    · split
      · rw [alertCount_cons, h1]; simpa using ih _
      · rw [alertCount_cons, h1]; simp [alertCount]
    · split
      · rw [alertCount_cons, h1, (runCycles_gate_closed URL fuel _ es h2).1]
      · rw [alertCount_cons, h1]; simp [alertCount]

/-- Cycles that return without reaching FleetDown leave an open gate open
and send nothing. -/
theorem runCycles_no_fleetDown (URL : List String) (fuel : Nat) (es : List Env)
    (hes : ∀ e ∈ es, (UptimeRobot URL 0 e fuel).returned = true
      ∧ (UptimeRobot URL 0 e fuel).verdict ≠ some Verdict.FleetDown)
    (tail : List Env) :
    runCycles URL fuel 0 (es ++ tail)
        = es.map (fun e => UptimeRobot URL 0 e fuel) ++ runCycles URL fuel 0 tail
      ∧ alertCount (es.map (fun e => UptimeRobot URL 0 e fuel)) = 0
      ∧ finalSent 0 (es.map (fun e => UptimeRobot URL 0 e fuel)) = 0 := by
  induction es with
  | nil => exact ⟨rfl, rfl, rfl⟩
  | cons e es ih =>
    have he := hes e (by simp)
    have hq := UptimeRobot_no_alert URL 0 e fuel he.2
    have ih2 := ih (fun e' h' => hes e' (by simp [h']))
    refine ⟨?_, ?_, ?_⟩
    · rw [List.cons_append, runCycles_cons, if_pos he.1, hq.2, ih2.1]
      rfl
    · rw [List.map_cons, alertCount_cons, hq.1, ih2.2.1]
      rfl
    · rw [List.map_cons, finalSent_cons, hq.2, ih2.2.2]

/-! The clock -/

/-- The deadline lies within the second that ends 30 s after the start. -/
theorem deadline_bounds (s v : Int) (h : deadline s = some v) :
    v ≤ s + 30 * second ∧ s + 29 * second < v := by
  unfold deadline at h
  simp only at h
  split at h
  · cases h
    simp only [second]
    constructor <;> omega
  · cases h

/-- Truncated division by one second is positive from one second on. -/
theorem tdiv_second_pos_iff (d : Int) : 0 < Int.tdiv d 1000000000 ↔ 1000000000 ≤ d := by
  rcases Int.lt_or_le d 0 with hneg | hpos
  · have h1 : d.tdiv 1000000000 = -((-d).tdiv 1000000000) := by
      rw [← Int.neg_tdiv]; congr 1; omega
    have h2 : (-d).tdiv 1000000000 = (-d) / 1000000000 :=
      Int.tdiv_eq_ediv (by omega) (by omega)
    rw [h1, h2]
    omega
  · rw [Int.tdiv_eq_ediv hpos (by omega)]
    omega

/-- The test `timeRemaining.t <= 0` holds exactly when less than one whole
second is left, also where `Sub` saturates. -/
theorem timeRemaining_pos_iff (v now : Int) :
    0 < (getTimeRemaining v now).t ↔ now + second ≤ v := by
  simp only [getTimeRemaining, second, tdiv_second_pos_iff, timeSub, minDuration, maxDuration]
  split
  · omega
  · split <;> omega

/-- The cross-check does not read the outcome of the SMTP send. -/
theorem tickLoop_smtp (URL : List String) (e : Env) (b : Bool) (v : Int) (fuel k : Nat)
    (m : Evidence) (c : Nat) :
    tickLoop URL { e with smtpOk := b } v fuel k m c = tickLoop URL e v fuel k m c := by
  induction fuel generalizing k m c with
  | zero => rfl
  | succ fuel ih =>
    unfold tickLoop
    simp only [ih]

theorem ServerDown_smtp (URL : List String) (e : Env) (b : Bool) (fuel : Nat) :
    ServerDown URL { e with smtpOk := b } fuel = ServerDown URL e fuel := by
  unfold ServerDown crossCheck
  simp only [tickLoop_smtp]

/-- The verdict of a cycle does not depend on the outcome of the SMTP send. -/
theorem UptimeRobot_verdict_smtp (URL : List String) (Sent : Nat) (e : Env) (b : Bool)
    (fuel : Nat) :
    (UptimeRobot URL Sent { e with smtpOk := b } fuel).verdict
      = (UptimeRobot URL Sent e fuel).verdict := by
  obtain ⟨p, s, n, pr, d, ok⟩ := e
  cases p with
  | error =>
    rw [UptimeRobot_primary_error URL Sent ⟨Response.error, s, n, pr, d, ok⟩ fuel rfl,
      UptimeRobot_primary_error URL Sent ⟨Response.error, s, n, pr, d, b⟩ fuel rfl]
  | status code =>
    by_cases h : 399 < code ∧ 1 < URL.length
    · rw [UptimeRobot_crossCheck URL Sent ⟨Response.status code, s, n, pr, d, ok⟩ fuel code
          rfl h.1 h.2,
        UptimeRobot_crossCheck URL Sent ⟨Response.status code, s, n, pr, d, b⟩ fuel code
          rfl h.1 h.2]
      have hs := ServerDown_smtp URL ⟨Response.status code, s, n, pr, d, ok⟩ b fuel
      simp only at hs
      rw [hs]
      cases ServerDown URL ⟨Response.status code, s, n, pr, d, ok⟩ fuel with
      | none => rfl
      | some r =>
        simp only
        by_cases hv : verdictOf r = Verdict.FleetDown
        · rw [if_pos hv, if_pos hv]
          split <;> rfl
        · rw [if_neg hv, if_neg hv]
    · rw [UptimeRobot_quiet URL Sent ⟨Response.status code, s, n, pr, d, ok⟩ fuel code rfl h,
        UptimeRobot_quiet URL Sent ⟨Response.status code, s, n, pr, d, b⟩ fuel code rfl h]

/-- All responses are above 399 exactly when none is filtered out. -/
theorem unhealthy_length_eq_iff (rs : List (String × Nat)) :
    (unhealthy rs).length = rs.length ↔ ∀ p ∈ rs, 399 < p.2 := by
  induction rs with
  | nil => simp [unhealthy]
  | cons p rs ih =>
    rw [unhealthy_cons]
    have hle := unhealthy_length_le rs
    by_cases h : p.2 > 399
    · rw [if_pos h]
      simp only [List.length_cons, Nat.add_right_cancel_iff, List.mem_cons, forall_eq_or_imp]
      rw [ih]
      exact ⟨fun hall => ⟨h, hall⟩, fun hall => hall.2⟩
    · rw [if_neg h]
      simp only [List.length_cons, List.mem_cons, forall_eq_or_imp]
      constructor
      · intro heq; omega
      · intro hall; exact absurd hall.1 h

/-- A response at or below 399 keeps the map strictly smaller than the
number of responses. -/
theorem unhealthy_length_lt (rs : List (String × Nat)) (p : String × Nat) (hp : p ∈ rs)
    (h : p.2 < 400) : (unhealthy rs).length < rs.length := by
  have hle := unhealthy_length_le rs
  rcases Nat.lt_or_ge (unhealthy rs).length rs.length with hlt | hge
  · exact hlt
  · have := (unhealthy_length_eq_iff rs).1 (by omega) p hp
    omega

/-- The cycle after a cross-check that returned `r`. -/
theorem UptimeRobot_of_run (URL : List String) (Sent : Nat) (e : Env) (fuel code : Nat)
    (r : Run) (hp : e.primary = Response.status code) (hc : 399 < code)
    (hN : 1 < URL.length) (hr : crossCheck URL e fuel = some r) :
    (UptimeRobot URL Sent e fuel).verdict = some (verdictOf (r.CrossCheck, r.TotalChecked))
      ∧ (UptimeRobot URL Sent e fuel).returned = true
      ∧ (verdictOf (r.CrossCheck, r.TotalChecked) = Verdict.PrimaryFlaky →
          (UptimeRobot URL Sent e fuel).emails = [] ∧ (UptimeRobot URL Sent e fuel).Sent = Sent)
      ∧ (verdictOf (r.CrossCheck, r.TotalChecked) = Verdict.FleetDown → Sent = 0 →
          (UptimeRobot URL Sent e fuel).emails = [e.smtpOk]
            ∧ (UptimeRobot URL Sent e fuel).Sent = 1) := by
  have key : UptimeRobot URL Sent e fuel =
      if verdictOf (r.CrossCheck, r.TotalChecked) = Verdict.FleetDown then
        if Sent = 0 then
          ⟨Sent + 1, true, some Verdict.FleetDown, [e.smtpOk],
            [LogLine.processingOthers, LogLine.serverDown,
             SendEmailAlert e.smtpOk, LogLine.emailDisabled], true⟩
        else
          ⟨Sent, true, some Verdict.FleetDown, [],
            [LogLine.processingOthers, LogLine.serverDown], true⟩
      else
        ⟨Sent, true, some Verdict.PrimaryFlaky, [],
          [LogLine.processingOthers, LogLine.serverRunning], true⟩ := by
    rw [UptimeRobot_crossCheck URL Sent e fuel code hp hc hN, ServerDown_eq URL e fuel r hr]
  rw [key]
  by_cases hv : verdictOf (r.CrossCheck, r.TotalChecked) = Verdict.FleetDown
  · rw [if_pos hv]
    by_cases h0 : Sent = 0
    · rw [if_pos h0, hv, h0]
      refine ⟨rfl, rfl, ?_, ?_⟩
      · intro h; cases h
      · intro _ _; exact ⟨rfl, rfl⟩
    · rw [if_neg h0, hv]
      refine ⟨rfl, rfl, ?_, ?_⟩
      · intro h; cases h
      · intro _ h; exact absurd h h0
  · rw [if_neg hv]
    have hflaky : verdictOf (r.CrossCheck, r.TotalChecked) = Verdict.PrimaryFlaky := by
      cases hx : verdictOf (r.CrossCheck, r.TotalChecked) with
      | FleetDown => exact absurd hx hv
      | PrimaryFlaky => rfl
    rw [hflaky]
    refine ⟨rfl, rfl, ?_, ?_⟩
    · intro _; exact ⟨rfl, rfl⟩
    · intro h; cases h

/-- Line 153 on a returned run: the map has as many entries as there were
responses. -/
theorem verdictOf_run_iff (URL : List String) (e : Env) (fuel : Nat) (r : Run)
    (hr : crossCheck URL e fuel = some r) :
    verdictOf (r.CrossCheck, r.TotalChecked) = Verdict.FleetDown
      ↔ r.CrossCheck.length = (responses URL e r.passes).length := by
  have hs := crossCheck_spec URL e fuel r hr
  unfold verdictOf
  simp only
  rw [hs.2]
  constructor
  · intro h
    split at h
    · rename_i heq; push_cast at heq; omega
    · cases h
  · intro h
    rw [if_pos (by push_cast; omega)]

/-- A pass in which every fallback answers above 399, over pairwise distinct
URLs not yet in the map: each is entered and counted. -/
theorem innerLoop_all_unhealthy (N : Nat) (probe : Nat → Response) (us : List String)
    (i : Nat) (m : Evidence) (c : Nat) (h : i + us.length ≤ N)
    (hall : ∀ j, i ≤ j → j < i + us.length → ∃ s, probe j = Response.status s ∧ 399 < s)
    (hnd : us.Nodup) (hdis : ∀ u ∈ us, u ∉ keys m) :
    innerLoop N probe us i m c = (m ++ us.map (fun u => (u, true)), c + us.length) := by
  induction us generalizing i m c with
  | nil => simp [innerLoop]
  | cons u us ih =>
    simp only [List.length_cons] at h
    obtain ⟨s, hs, h399⟩ := hall i (le_refl _) (by simp only [List.length_cons]; omega)
    rw [List.nodup_cons] at hnd
    unfold innerLoop
    rw [hs]
    simp only
    rw [if_pos h399, if_neg (by omega : ¬ N = i),
      mapSet_of_not_mem true (hdis u (by simp)),
      ih (i + 1) _ (c + 1) (by omega)
        (fun j h1 h2 => hall j (by omega) (by simp only [List.length_cons]; omega)) hnd.2]
    · simp only [List.map_cons, List.append_assoc, List.singleton_append, List.length_cons]
      congr 1
      omega
    · intro w hw hmem
      have hk : keys (m ++ [(u, true)]) = keys m ++ [u] := by simp [keys]
      rw [hk, List.mem_append, List.mem_singleton] at hmem
      rcases hmem with hmem | hmem
      · exact hdis w (by simp [hw]) hmem
      · exact hnd.1 (hmem ▸ hw)

/-- The time a pass takes is at most the bound on one probe per fallback. -/
theorem probeTime_le (e : Env) (k n : Nat) (B : Int)
    (h : ∀ i, (e.dur k i : Int) ≤ B) :
    0 ≤ probeTime e k n ∧ probeTime e k n ≤ (n : Int) * B := by
  induction n with
  | zero => simp [probeTime]
  | succ n ih =>
    have hstep : probeTime e k (n + 1) = probeTime e k n + (e.dur k (n + 1) : Int) := by
      simp [probeTime, List.range_succ]
    have hd := h (n + 1)
    have h0 : (0 : Int) ≤ (e.dur k (n + 1) : Int) := Int.ofNat_nonneg _
    rw [hstep]
    constructor
    · omega
    · push_cast
      have : ((n : Int) + 1) * B = (n : Int) * B + B := by ring
      omega

/-- Every run of the inner loop calls `request` on every fallback, in order,
whatever the probes return: the loop has no exit before `i` reaches
`len(URL)`. -/
theorem probesOfPass_eq (N : Nat) (probe : Nat → Response) (us : List String) (i : Nat)
    (h : i + us.length ≤ N) :
    probesOfPass N probe us i = List.range' i us.length := by
  induction us generalizing i with
  | nil => rfl
  | cons u us ih =>
    simp only [List.length_cons] at h
    unfold probesOfPass
    simp only [List.length_cons, List.range'_succ, List.cons.injEq, true_and]
    cases probe i with
    | error => exact ih (i + 1) (by omega)
    | status code =>
      simp only
      rw [if_neg (by omega : ¬ N = i)]
      exact ih (i + 1) (by omega)

theorem probesOfPass_pass (URL : List String) (probe : Nat → Response) :
    probesOfPass URL.length probe (URL.drop 1) 1 = List.range' 1 (URL.length - 1) := by
  cases URL with
  | nil => rfl
  | cons a us =>
    simp only [List.drop_succ_cons, List.drop_zero, List.length_cons, Nat.add_sub_cancel]
    exact probesOfPass_eq _ probe us 1 (by omega)

/-- With a latency of at most half a second, tick `2 * j` is read at least
one second and `j` half seconds after the start. -/
theorem now_even_ge (URL : List String) (e : Env) (lat : Int) (ht : Timing URL e lat)
    (hlat : 2 * lat ≤ second) (j : Nat) :
    2 * e.start + 2 * second + (j : Int) * second ≤ 2 * e.now (2 * j) := by
  induction j with
  | zero =>
    have := ht.first_lo
    simp only [Nat.mul_zero, Nat.cast_zero, zero_mul, add_zero]
    omega
  | succ j ih =>
    have := ht.period (2 * j)
    have h2 : 2 * (j + 1) = 2 * j + 2 := by ring
    rw [h2]
    push_cast
    have : ((j : Int) + 1) * second = (j : Int) * second + second := by ring
    omega

/-- Under `Timing` with a latency of at most half a second the window is
found closed at tick 116 at the latest. -/
theorem expired_of_timing (URL : List String) (e : Env) (lat : Int) (ht : Timing URL e lat)
    (hlat : 2 * lat ≤ second) :
    expired e 116 := by
  unfold expired
  cases hv : deadline e.start with
  | none => trivial
  | some v =>
    simp only
    have hb := deadline_bounds e.start v hv
    have hn := now_even_ge URL e lat ht hlat 58
    have hpos := timeRemaining_pos_iff v (e.now 116)
    by_contra hcon
    have h1 : e.now 116 + second ≤ v := hpos.1 (by omega)
    simp only [second] at h1 hb hn
    have h116 : (2 * 58 : Nat) = 116 := rfl
    rw [h116] at hn
    push_cast at hn
    omega

/-- A cycle returns once a tick finds the window closed. -/
theorem UptimeRobot_returns (URL : List String) (Sent : Nat) (e : Env) (K fuel : Nat)
    (hK : expired e K) (hf : K < fuel) :
    (UptimeRobot URL Sent e fuel).returned = true := by
  obtain ⟨r, hr, _⟩ := crossCheck_returns URL e K fuel hK hf
  rcases UptimeRobot_cases URL Sent e fuel with h1 | h1 | h1 | h1 | ⟨_, h1⟩ | ⟨_, h1⟩
  · rw [h1]
  · rw [h1]
  · exfalso
    cases hp : e.primary with
    | error =>
      rw [UptimeRobot_primary_error URL Sent e fuel hp] at h1
      split at h1 <;> cases h1
    | status code =>
      by_cases h : 399 < code ∧ 1 < URL.length
      · have := (UptimeRobot_of_run URL Sent e fuel code r hp h.1 h.2 hr).2.1
        rw [h1] at this
        cases this
      · rw [UptimeRobot_quiet URL Sent e fuel code hp h] at h1
        cases h1
  · rw [h1]
  · rw [h1]
  · rw [h1]

/-- A URL that answers in more than one pass is counted each time but
entered in the map once: here both fallbacks answer 500 in the second and
third pass, the counter reaches 6 with two entries in the map, and line 153
gives PrimaryFlaky. The counter steps from 2 to 4 and never equals
`len(URL) = 3`, so the loop runs until the deadline. -/
theorem crossCheck_counts_every_pass :
    crossCheck urls3 envRetry 5 = some ⟨[("C", true), ("B", true)], 6, 3⟩
      ∧ (UptimeRobot urls3 0 envRetry 5).verdict = some Verdict.PrimaryFlaky
      ∧ specFleetDown urls3 envRetry ⟨[("C", true), ("B", true)], 6, 3⟩ :=
  ⟨by decide, by decide, by decide⟩

/-! The claims -/

/-- C8: one `UptimeRobot` cycle calls `ServerDown` if and only if the primary
probe returned a response with status above 399 and the list has a fallback;
in every other case (primary below 400, primary transport error, a single
URL, an empty list) the cycle calls neither `ServerDown` nor
`SendEmailAlert`, leaves `Sent` as it was, and returns. -/
theorem C8_cross_check_iff (URL : List String) (Sent : Nat) (e : Env) (fuel : Nat) :
    ((UptimeRobot URL Sent e fuel).crossChecked = true
        ↔ (∃ code, e.primary = Response.status code ∧ 399 < code) ∧ 1 < URL.length)
      ∧ (¬ ((∃ code, e.primary = Response.status code ∧ 399 < code) ∧ 1 < URL.length)
          → (UptimeRobot URL Sent e fuel).crossChecked = false
            ∧ (UptimeRobot URL Sent e fuel).emails = []
            ∧ (UptimeRobot URL Sent e fuel).Sent = Sent
            ∧ (UptimeRobot URL Sent e fuel).returned = true) := by
  cases hp : e.primary with
  | error =>
    rw [UptimeRobot_primary_error URL Sent e fuel hp]
    constructor
    · constructor
      · intro h; split at h <;> cases h
      · rintro ⟨⟨code, hcode, _⟩, _⟩; cases hcode
    · intro _; split <;> exact ⟨rfl, rfl, rfl, rfl⟩
  | status code =>
    by_cases h : 399 < code ∧ 1 < URL.length
    · constructor
      · constructor
        · intro _; exact ⟨⟨code, rfl, h.1⟩, h.2⟩
        · intro _
          rw [UptimeRobot_crossCheck URL Sent e fuel code hp h.1 h.2]
          cases hs : ServerDown URL e fuel with
          | none => rfl
          | some r => simp only; split <;> [split; skip] <;> rfl
      · intro hn; exact absurd ⟨⟨code, rfl, h.1⟩, h.2⟩ hn
    · rw [UptimeRobot_quiet URL Sent e fuel code hp h]
      constructor
      · constructor
        · intro hc; cases hc
        · rintro ⟨⟨code2, hcode, h399⟩, hN⟩
          cases hcode
          exact absurd ⟨h399, hN⟩ h
      · intro _; exact ⟨rfl, rfl, rfl, rfl⟩

/-- Witness for C8: a primary answering 200 with one fallback and `Sent = 0`. -/
theorem C8_cross_check_iff_witness :
    ¬ ((∃ code, envHealthy.primary = Response.status code ∧ 399 < code) ∧ 1 < urls2.length)
      ∧ (UptimeRobot urls2 0 envHealthy 5).crossChecked = false
      ∧ (UptimeRobot urls2 0 envHealthy 5).emails = []
      ∧ (UptimeRobot urls2 0 envHealthy 5).Sent = 0
      ∧ (UptimeRobot urls2 0 envHealthy 5).returned = true :=
  have h : ¬ ((∃ code, envHealthy.primary = Response.status code ∧ 399 < code)
      ∧ 1 < urls2.length) := by
    rintro ⟨⟨code, hcode, h399⟩, _⟩
    have : code = 200 := by
      simp only [envHealthy, Response.status.injEq] at hcode
      exact hcode.symm
    omega
  ⟨h, (C8_cross_check_iff urls2 0 envHealthy 5).2 h⟩

/-- C3: in a sequence of `UptimeRobot` cycles with no `reset` in between,
`SendEmailAlert` is called at most once, whatever the probes return and
however many cycles reach FleetDown; and with `Sent != 0` no cycle sends
anything or changes `Sent`. -/
theorem C3_at_most_one_alert (URL : List String) (fuel Sent : Nat) (es : List Env) :
    alertCount (runCycles URL fuel Sent es) ≤ 1
      ∧ (Sent ≠ 0 →
          alertCount (runCycles URL fuel Sent es) = 0
          ∧ finalSent Sent (runCycles URL fuel Sent es) = Sent
          ∧ ∀ e, (UptimeRobot URL Sent e fuel).emails = []
              ∧ (UptimeRobot URL Sent e fuel).Sent = Sent) := by
  refine ⟨runCycles_alertCount_le URL fuel Sent es, fun h => ?_⟩
  exact ⟨(runCycles_gate_closed URL fuel Sent es h).1,
    (runCycles_gate_closed URL fuel Sent es h).2,
    fun e => UptimeRobot_gate_closed URL Sent e fuel h⟩

/-- Witness for C3: three cycles in a row that all reach FleetDown, first
from an open gate (one alert), then from a closed one (none). -/
theorem C3_at_most_one_alert_witness :
    (alertCount (runCycles urls3 5 0 [envAll500, envAll500, envAll500]) ≤ 1
      ∧ (runCycles urls3 5 0 [envAll500, envAll500, envAll500]).map (fun c => c.verdict)
          = [some Verdict.FleetDown, some Verdict.FleetDown, some Verdict.FleetDown])
      ∧ ((1 : Nat) ≠ 0
        ∧ alertCount (runCycles urls3 5 1 [envAll500, envAll500]) = 0
        ∧ finalSent 1 (runCycles urls3 5 1 [envAll500, envAll500]) = 1) :=
  ⟨⟨(C3_at_most_one_alert urls3 5 0 [envAll500, envAll500, envAll500]).1, by decide⟩,
    by decide,
    ((C3_at_most_one_alert urls3 5 1 [envAll500, envAll500]).2 (by decide)).1,
    ((C3_at_most_one_alert urls3 5 1 [envAll500, envAll500]).2 (by decide)).2.1⟩

/-- C6: `reset` sets `Sent` to 0 whatever it was; after it, cycles that do
not reach FleetDown leave the gate open, and the first cycle that reaches
FleetDown calls `SendEmailAlert` exactly once and sets `Sent` to 1. -/
theorem C6_reset_reopens (URL : List String) (fuel Sent : Nat) (es : List Env) (e : Env)
    (hes : ∀ e' ∈ es, (UptimeRobot URL 0 e' fuel).returned = true
      ∧ (UptimeRobot URL 0 e' fuel).verdict ≠ some Verdict.FleetDown)
    (he : (UptimeRobot URL 0 e fuel).verdict = some Verdict.FleetDown) :
    reset Sent = 0
      ∧ finalSent (reset Sent) (runCycles URL fuel (reset Sent) es) = 0
      ∧ (UptimeRobot URL 0 e fuel).emails = [e.smtpOk]
      ∧ (UptimeRobot URL 0 e fuel).Sent = 1
      ∧ alertCount (runCycles URL fuel (reset Sent) (es ++ [e])) = 1
      ∧ finalSent (reset Sent) (runCycles URL fuel (reset Sent) (es ++ [e])) = 1 := by
  have hopen := UptimeRobot_gate_open URL e fuel he
  have h1 := runCycles_no_fleetDown URL fuel es hes []
  have h2 := runCycles_no_fleetDown URL fuel es hes [e]
  have hlast : runCycles URL fuel 0 [e] = [UptimeRobot URL 0 e fuel] := by
    rw [runCycles_cons]; split <;> rfl
  have hcount : ∀ (xs ys : List Cycle), alertCount (xs ++ ys) = alertCount xs + alertCount ys := by
    intro xs ys; simp [alertCount]
  have hfinal : ∀ (s : Nat) (xs : List Cycle) (y : Cycle), finalSent s (xs ++ [y]) = y.Sent := by
    intro s xs y; simp [finalSent]
  refine ⟨rfl, ?_, by rw [hopen], by rw [hopen], ?_, ?_⟩
  · show finalSent 0 (runCycles URL fuel 0 es) = 0
    have := h1.1
    rw [List.append_nil] at this
    rw [this]
    simpa [runCycles] using h1.2.2
  · show alertCount (runCycles URL fuel 0 (es ++ [e])) = 1
    rw [h2.1, hlast, hcount, h2.2.1, hopen]
    rfl
  · show finalSent 0 (runCycles URL fuel 0 (es ++ [e])) = 1
    rw [h2.1, hlast, hfinal, hopen]

/-- Witness for C6: the gate was closed (`Sent = 1`); after `reset`, one
cycle with a healthy fallback and then one that reaches FleetDown. -/
theorem C6_reset_reopens_witness :
    (UptimeRobot urls3 0 envAll500 5).verdict = some Verdict.FleetDown
      ∧ reset 1 = 0
      ∧ finalSent (reset 1) (runCycles urls3 5 (reset 1) [envOneHealthy]) = 0
      ∧ (UptimeRobot urls3 0 envAll500 5).emails = [envAll500.smtpOk]
      ∧ (UptimeRobot urls3 0 envAll500 5).Sent = 1
      ∧ alertCount (runCycles urls3 5 (reset 1) ([envOneHealthy] ++ [envAll500])) = 1
      ∧ finalSent (reset 1) (runCycles urls3 5 (reset 1) ([envOneHealthy] ++ [envAll500])) = 1 :=
  ⟨by decide,
    C6_reset_reopens urls3 5 1 [envOneHealthy] envAll500
      (by
        intro e' he'
        rw [List.mem_singleton] at he'
        subst he'
        decide)
      (by decide)⟩

/-- C9: when a cycle reaches FleetDown with `Sent = 0`, then whether the SMTP
send succeeds or fails (`b`), `SendEmailAlert` is called once, the failure is
only logged, and `Sent` is 1 afterwards; the cycles that follow before a
reset, whatever their verdicts, make no send attempt and leave `Sent` at 1. -/
theorem C9_failed_send_closes_gate (URL : List String) (e : Env) (fuel : Nat) (b : Bool)
    (h : (UptimeRobot URL 0 e fuel).verdict = some Verdict.FleetDown) :
    (UptimeRobot URL 0 { e with smtpOk := b } fuel).Sent = 1
      ∧ (UptimeRobot URL 0 { e with smtpOk := b } fuel).emails = [b]
      ∧ (UptimeRobot URL 0 { e with smtpOk := b } fuel).log
          = [LogLine.processingOthers, LogLine.serverDown,
             if b then LogLine.sent else LogLine.smtpError, LogLine.emailDisabled]
      ∧ ∀ (es : List Env) (fuel' : Nat),
          alertCount
              (runCycles URL fuel' (UptimeRobot URL 0 { e with smtpOk := b } fuel).Sent es) = 0
          ∧ finalSent (UptimeRobot URL 0 { e with smtpOk := b } fuel).Sent
              (runCycles URL fuel' (UptimeRobot URL 0 { e with smtpOk := b } fuel).Sent es) = 1 := by
  have hb : (UptimeRobot URL 0 { e with smtpOk := b } fuel).verdict = some Verdict.FleetDown := by
    rw [UptimeRobot_verdict_smtp]; exact h
  have hopen := UptimeRobot_gate_open URL { e with smtpOk := b } fuel hb
  rw [hopen]
  refine ⟨rfl, rfl, rfl, fun es fuel' => ?_⟩
  exact runCycles_gate_closed URL fuel' 1 es (by decide)

/-- Witness for C9: the SMTP send fails in a cycle that reaches FleetDown,
and a second FleetDown cycle follows. -/
theorem C9_failed_send_closes_gate_witness :
    (UptimeRobot urls3 0 envAll500 5).verdict = some Verdict.FleetDown
      ∧ (UptimeRobot urls3 0 { envAll500 with smtpOk := false } 5).Sent = 1
      ∧ (UptimeRobot urls3 0 { envAll500 with smtpOk := false } 5).emails = [false]
      ∧ (UptimeRobot urls3 0 { envAll500 with smtpOk := false } 5).log
          = [LogLine.processingOthers, LogLine.serverDown, LogLine.smtpError,
             LogLine.emailDisabled]
      ∧ alertCount (runCycles urls3 5
          (UptimeRobot urls3 0 { envAll500 with smtpOk := false } 5).Sent [envAll500]) = 0 :=
  ⟨by decide,
    (C9_failed_send_closes_gate urls3 envAll500 5 false (by decide)).1,
    (C9_failed_send_closes_gate urls3 envAll500 5 false (by decide)).2.1,
    (C9_failed_send_closes_gate urls3 envAll500 5 false (by decide)).2.2.1,
    ((C9_failed_send_closes_gate urls3 envAll500 5 false (by decide)).2.2.2 [envAll500] 5).1⟩

/-- C1, as stated, fails: with one fallback whose probes all fail with a
transport error, `ServerDown` returns an empty map and count 1, line 153
gives FleetDown, yet no fallback target was reached and none was recorded
unhealthy. -/
theorem C1_counterexample :
    crossCheck urls2 envAllError 10 = some ⟨[], 1, 2⟩
      ∧ (UptimeRobot urls2 0 envAllError 10).verdict = some Verdict.FleetDown
      ∧ envAllError.probe 0 1 = Response.error
      ∧ reached urls2 envAllError ⟨[], 1, 2⟩ = []
      ∧ ¬ specFleetDown urls2 envAllError ⟨[], 1, 2⟩ :=
  ⟨by decide, by decide, rfl, by decide, by decide⟩

/-- C1, amended: when the primary answered above 399, there is a fallback,
the cross-check returned, and no fallback URL returned an HTTP response more
than once during it, the verdict of line 153 is FleetDown if and only if
every fallback probe that returned a response returned a status above 399
(which includes the case that no probe returned a response at all). -/
theorem C1_verdict_iff (URL : List String) (Sent : Nat) (e : Env) (fuel code : Nat) (r : Run)
    (hp : e.primary = Response.status code) (hc : 399 < code) (hN : 1 < URL.length)
    (hr : crossCheck URL e fuel = some r)
    (hnd : (reached URL e r).Nodup) :
    (UptimeRobot URL Sent e fuel).verdict = some Verdict.FleetDown
      ↔ ∀ p ∈ responses URL e r.passes, 399 < p.2 := by
  rw [(UptimeRobot_of_run URL Sent e fuel code r hp hc hN hr).1, Option.some.injEq,
    verdictOf_run_iff URL e fuel r hr, (crossCheck_spec URL e fuel r hr).1,
    record_length_of_nodup [] _ hnd (fun u _ hu => by simp [keys] at hu),
    ← unhealthy_length_eq_iff]
  simp

/-- Witness for C1: two fallbacks, the first fails with a transport error,
the second answers 500, the window closes after one pass: FleetDown. -/
theorem C1_verdict_iff_witness :
    (envFirstError.primary = Response.status 500 ∧ 399 < 500 ∧ 1 < urls3.length
      ∧ crossCheck urls3 envFirstError 5 = some ⟨[("C", true)], 2, 1⟩
      ∧ (reached urls3 envFirstError ⟨[("C", true)], 2, 1⟩).Nodup)
      ∧ ((UptimeRobot urls3 0 envFirstError 5).verdict = some Verdict.FleetDown
        ↔ ∀ p ∈ responses urls3 envFirstError 1, 399 < p.2) :=
  ⟨⟨rfl, by decide, by decide, by decide, by decide⟩,
    C1_verdict_iff urls3 0 envFirstError 5 500 ⟨[("C", true)], 2, 1⟩
      rfl (by decide) (by decide) (by decide) (by decide)⟩

/-- C2, as stated, fails: the probe of `B` fails with a transport error and
`C` answers 500; `ServerDown` returns a map without `B` and count 2, where a
500 from `B` gives a map with `B` and count 3. -/
theorem C2_counterexample :
    envFirstError.probe 0 1 = Response.error
      ∧ ServerDown urls3 envFirstError 5 = some ([("C", true)], 2)
      ∧ envAll500.probe 0 1 = Response.status 500
      ∧ ServerDown urls3 envAll500 5 = some ([("B", true), ("C", true)], 3) :=
  ⟨rfl, by decide, rfl, by decide⟩

/-- C2, amended: a fallback probe that fails with a transport error is
skipped: the inner loop goes on with the map and the counter unchanged. So
the counter `ServerDown` returns is 1 plus the number of probes that returned
an HTTP response, and the keys of the map are exactly the URLs that returned
a status above 399. -/
theorem C2_errors_skipped (URL : List String) (e : Env) (fuel : Nat) (r : Run)
    (hr : crossCheck URL e fuel = some r) :
    r.TotalChecked = 1 + (responses URL e r.passes).length
      ∧ (∀ u, u ∈ keys r.CrossCheck ↔ ∃ s, (u, s) ∈ responses URL e r.passes ∧ 399 < s)
      ∧ (∀ (N : Nat) (probe : Nat → Response) (u : String) (us : List String) (i : Nat)
          (m : Evidence) (c : Nat), probe i = Response.error →
          innerLoop N probe (u :: us) i m c = innerLoop N probe us (i + 1) m c) := by
  have hs := crossCheck_spec URL e fuel r hr
  refine ⟨hs.2, fun u => ?_, ?_⟩
  · rw [hs.1, mem_keys_record]
    simp [keys]
  · intro N probe u us i m c hperr
    conv => lhs; unfold innerLoop
    rw [hperr]

/-- Witness for C2: a transport error at `B`, a 500 from `C`, one pass. -/
theorem C2_errors_skipped_witness :
    crossCheck urls3 envFirstError 5 = some ⟨[("C", true)], 2, 1⟩
      ∧ (2 = 1 + (responses urls3 envFirstError 1).length
        ∧ (∀ u, u ∈ keys [("C", true)]
            ↔ ∃ s, (u, s) ∈ responses urls3 envFirstError 1 ∧ 399 < s)) :=
  ⟨by decide,
    (C2_errors_skipped urls3 envFirstError 5 ⟨[("C", true)], 2, 1⟩ (by decide)).1,
    (C2_errors_skipped urls3 envFirstError 5 ⟨[("C", true)], 2, 1⟩ (by decide)).2.1⟩

/-- C5: when the primary answered above 399 and there is a fallback, the
cycle returns once a tick finds the window closed; and when the cross-check
has returned and some fallback probe made during it returned a status below
400, the verdict is PrimaryFlaky whatever the other probes returned in
however many passes: `SendEmailAlert` is not called and `Sent` stays as it
was. -/
theorem C5_healthy_fallback (URL : List String) (Sent : Nat) (e : Env) (fuel code : Nat)
    (r : Run) (k i s : Nat)
    (hp : e.primary = Response.status code) (hc : 399 < code) (hN : 1 < URL.length)
    (hr : crossCheck URL e fuel = some r)
    (hk : k < r.passes) (hi1 : 1 ≤ i) (hi : i < URL.length)
    (hs : e.probe k i = Response.status s) (h400 : s < 400) :
    (∀ K fuel', expired e K → K < fuel' → (UptimeRobot URL Sent e fuel').returned = true)
      ∧ (UptimeRobot URL Sent e fuel).returned = true
      ∧ (UptimeRobot URL Sent e fuel).verdict = some Verdict.PrimaryFlaky
      ∧ (UptimeRobot URL Sent e fuel).emails = []
      ∧ (UptimeRobot URL Sent e fuel).Sent = Sent := by
  have hrun := UptimeRobot_of_run URL Sent e fuel code r hp hc hN hr
  obtain ⟨u, hu⟩ := responses_mem URL e r.passes k i s hk hi1 hi hs
  have hlt := unhealthy_length_lt _ (u, s) hu h400
  have hlen := record_length_le [] (responses URL e r.passes)
  rw [← (crossCheck_spec URL e fuel r hr).1] at hlen
  have hflaky : verdictOf (r.CrossCheck, r.TotalChecked) = Verdict.PrimaryFlaky := by
    cases hx : verdictOf (r.CrossCheck, r.TotalChecked) with
    | PrimaryFlaky => rfl
    | FleetDown =>
      have := (verdictOf_run_iff URL e fuel r hr).1 hx
      simp only [List.length_nil] at hlen
      omega
  rw [hflaky] at hrun
  exact ⟨fun K fuel' hK hf => UptimeRobot_returns URL Sent e K fuel' hK hf,
    hrun.2.1, hrun.1, (hrun.2.2.1 rfl).1, (hrun.2.2.1 rfl).2⟩

/-- Witness for C5: primary 503, first fallback 200, second fallback 500. -/
theorem C5_healthy_fallback_witness :
    (envOneHealthy.primary = Response.status 503 ∧ 399 < 503 ∧ 1 < urls3.length
      ∧ crossCheck urls3 envOneHealthy 5 = some ⟨[("C", true)], 3, 1⟩
      ∧ envOneHealthy.probe 0 1 = Response.status 200 ∧ 200 < 400)
      ∧ (UptimeRobot urls3 0 envOneHealthy 5).returned = true
      ∧ (UptimeRobot urls3 0 envOneHealthy 5).verdict = some Verdict.PrimaryFlaky
      ∧ (UptimeRobot urls3 0 envOneHealthy 5).emails = []
      ∧ (UptimeRobot urls3 0 envOneHealthy 5).Sent = 0 :=
  ⟨⟨rfl, by decide, by decide, by decide, rfl, by decide⟩,
    (C5_healthy_fallback urls3 0 envOneHealthy 5 503 ⟨[("C", true)], 3, 1⟩ 0 1 200
      rfl (by decide) (by decide) (by decide) (by decide) (by decide) (by decide) rfl
      (by decide)).2⟩

/-- C10: when the primary answered above 399, there is a fallback, the
window is found closed at tick `K` and every fallback probe made before that
failed with a transport error (none at all when `K = 0`), `ServerDown`
returns the empty map and count 1, line 153 holds, and with `Sent = 0` the
cycle calls `SendEmailAlert` once and sets `Sent` to 1. Whatever the probes
return, the count `ServerDown` returns is 1 plus the number of fallback
probes that returned an HTTP response, and `len(checkedMap)` is at most
`CheckedCount-1`. -/
theorem C10_no_response_fleet_down (URL : List String) (e : Env) (K fuel code : Nat)
    (hp : e.primary = Response.status code) (hc : 399 < code) (hN : 1 < URL.length)
    (hK : expired e K) (hf : K < fuel)
    (herr : ∀ k i, k < K → 1 ≤ i → i < URL.length → e.probe k i = Response.error) :
    ServerDown URL e fuel = some ([], 1)
      ∧ verdictOf ([], 1) = Verdict.FleetDown
      ∧ (UptimeRobot URL 0 e fuel).returned = true
      ∧ (UptimeRobot URL 0 e fuel).verdict = some Verdict.FleetDown
      ∧ (UptimeRobot URL 0 e fuel).emails = [e.smtpOk]
      ∧ (UptimeRobot URL 0 e fuel).Sent = 1
      ∧ ∀ (e' : Env) (fuel' : Nat) (r : Run), crossCheck URL e' fuel' = some r →
          r.TotalChecked = 1 + (responses URL e' r.passes).length
          ∧ (r.CrossCheck.length : Int) ≤ (r.TotalChecked : Int) - 1 := by
  obtain ⟨r, hr, hle⟩ := crossCheck_returns URL e K fuel hK hf
  have hs := crossCheck_spec URL e fuel r hr
  have hnone : responses URL e r.passes = [] :=
    responses_all_error URL e r.passes (fun k i hk => herr k i (by omega))
  rw [hnone] at hs
  have hmap : r.CrossCheck = [] := hs.1
  have hcount : r.TotalChecked = 1 := hs.2
  have hrun := UptimeRobot_of_run URL 0 e fuel code r hp hc hN hr
  rw [hmap, hcount] at hrun
  have hfd : verdictOf (([] : Evidence), 1) = Verdict.FleetDown := by decide
  rw [hfd] at hrun
  refine ⟨?_, hfd, hrun.2.1, hrun.1, (hrun.2.2.2 rfl rfl).1, (hrun.2.2.2 rfl rfl).2, ?_⟩
  · rw [ServerDown_eq URL e fuel r hr, hmap, hcount]
  · intro e' fuel' r' hr'
    have hs' := crossCheck_spec URL e' fuel' r' hr'
    refine ⟨hs'.2, ?_⟩
    have h1 := record_length_le [] (responses URL e' r'.passes)
    have h2 := unhealthy_length_le (responses URL e' r'.passes)
    rw [← hs'.1] at h1
    rw [hs'.2]
    simp only [List.length_nil] at h1
    push_cast
    omega

/-- Witness for C10: one fallback whose every probe fails; the window is
found closed at the third tick. -/
theorem C10_no_response_fleet_down_witness :
    (envAllError.primary = Response.status 500 ∧ 399 < 500 ∧ 1 < urls2.length
      ∧ expired envAllError 2 ∧ 2 < 10)
      ∧ ServerDown urls2 envAllError 10 = some ([], 1)
      ∧ (UptimeRobot urls2 0 envAllError 10).emails = [true]
      ∧ (UptimeRobot urls2 0 envAllError 10).Sent = 1 :=
  have hK : expired envAllError 2 := by decide
  have h := C10_no_response_fleet_down urls2 envAllError 2 10 500 rfl (by decide) (by decide)
    hK (by decide) (fun _ _ _ _ _ => rfl)
  ⟨⟨rfl, by decide, by decide, hK, by decide⟩, h.1, h.2.2.2.2.1, h.2.2.2.2.2.1⟩

/-- C4: with a primary `A` and a non-empty list `fb` of pairwise distinct
fallback URLs, when the primary and every fallback probe answer above 399 and
the window is still open at the first tick, `ServerDown` returns the map with
every fallback URL and the count `len(URL)`; the verdict is FleetDown, and
with `Sent = 0` the cycle calls `SendEmailAlert` exactly once and sets `Sent`
to 1. -/
theorem C4_all_unhealthy (A : String) (fb : List String) (e : Env) (fuel code : Nat) (v : Int)
    (hfb : fb ≠ []) (hnd : fb.Nodup)
    (hp : e.primary = Response.status code) (hc : 399 < code)
    (hall : ∀ k i, 1 ≤ i → i < (A :: fb).length → ∃ s, e.probe k i = Response.status s ∧ 399 < s)
    (hv : deadline e.start = some v) (hopen : 0 < (getTimeRemaining v (e.now 0)).t)
    (hf : 2 ≤ fuel) :
    ServerDown (A :: fb) e fuel = some (fb.map (fun u => (u, true)), (A :: fb).length)
      ∧ (∀ u ∈ fb, u ∈ keys (fb.map (fun u => (u, true))))
      ∧ (UptimeRobot (A :: fb) 0 e fuel).returned = true
      ∧ (UptimeRobot (A :: fb) 0 e fuel).verdict = some Verdict.FleetDown
      ∧ (UptimeRobot (A :: fb) 0 e fuel).emails = [e.smtpOk]
      ∧ (UptimeRobot (A :: fb) 0 e fuel).Sent = 1 := by
  have hlen : 0 < fb.length := List.length_pos.2 hfb
  have hN : 1 < (A :: fb).length := by simp only [List.length_cons]; omega
  have hpass : pass (A :: fb) (e.probe 0) [] 1
      = (fb.map (fun u => (u, true)), (A :: fb).length) := by
    unfold pass
    simp only [List.drop_succ_cons, List.drop_zero]
    rw [innerLoop_all_unhealthy (A :: fb).length (e.probe 0) fb 1 [] 1
      (by simp only [List.length_cons]; omega)
      (fun j h1 h2 => hall 0 j h1 (by simp only [List.length_cons]; omega)) hnd
      (fun u _ hu => by simp [keys] at hu)]
    simp only [List.nil_append, List.length_cons]
    congr 1
    omega
  have hr : crossCheck (A :: fb) e fuel
      = some ⟨fb.map (fun u => (u, true)), (A :: fb).length, 1⟩ := by
    obtain ⟨f, rfl⟩ : ∃ f, fuel = f + 2 := ⟨fuel - 2, by omega⟩
    unfold crossCheck
    rw [hv]
    simp only
    unfold tickLoop
    rw [if_neg (by omega), if_neg (by omega : ¬ 1 = (A :: fb).length)]
    simp only [hpass]
    unfold tickLoop
    by_cases hx : (getTimeRemaining v (e.now (0 + 1))).t ≤ 0
    · rw [if_pos hx]
    · rw [if_neg hx, if_pos rfl]
  have hrun := UptimeRobot_of_run (A :: fb) 0 e fuel code _ hp hc hN hr
  have hfd : verdictOf ((Run.mk (fb.map (fun u => (u, true))) (A :: fb).length 1).CrossCheck,
      (Run.mk (fb.map (fun u => (u, true))) (A :: fb).length 1).TotalChecked)
      = Verdict.FleetDown := by
    unfold verdictOf
    rw [if_pos (by simp)]
  rw [hfd] at hrun
  refine ⟨?_, ?_, hrun.2.1, hrun.1, (hrun.2.2.2 rfl rfl).1, (hrun.2.2.2 rfl rfl).2⟩
  · rw [ServerDown_eq (A :: fb) e fuel _ hr]
  · intro u hu
    simp only [keys, List.map_map, List.mem_map]
    exact ⟨u, hu, rfl⟩

/-- Witness for C4: the list `[A, B, C]` with every probe answering 500. -/
theorem C4_all_unhealthy_witness :
    (["B", "C"] ≠ [] ∧ ["B", "C"].Nodup ∧ envAll500.primary = Response.status 500
      ∧ deadline envAll500.start = some 30000000000
      ∧ 0 < (getTimeRemaining 30000000000 (envAll500.now 0)).t)
      ∧ ServerDown ["A", "B", "C"] envAll500 5 = some ([("B", true), ("C", true)], 3)
      ∧ (UptimeRobot ["A", "B", "C"] 0 envAll500 5).verdict = some Verdict.FleetDown
      ∧ (UptimeRobot ["A", "B", "C"] 0 envAll500 5).emails = [true]
      ∧ (UptimeRobot ["A", "B", "C"] 0 envAll500 5).Sent = 1 :=
  have h := C4_all_unhealthy "A" ["B", "C"] envAll500 5 500 30000000000
    (by decide) (by decide) rfl (by decide) (fun _ _ _ _ => ⟨500, rfl, by decide⟩)
    (by decide) (by decide) (by decide)
  ⟨⟨by decide, by decide, rfl, by decide, by decide⟩,
    h.1, h.2.2.2.1, h.2.2.2.2.1, h.2.2.2.2.2⟩

/-- The clock of `envSlow` agrees with the probe durations and the ticker,
with no latency at all. -/
theorem envSlow_timing : Timing urls6 envSlow 0 where
  first_lo := by decide
  first_hi := by decide
  next_lo := by
    intro k
    have hd : passDur urls6 envSlow k = 50000000000 := by
      simp [passDur, probeTime, urls6, envSlow, List.range_succ]
    rw [hd]
    simp only [envSlow, second]
    push_cast
    omega
  next_hi := by
    intro k
    have hd : passDur urls6 envSlow k = 50000000000 := by
      simp [passDur, probeTime, urls6, envSlow, List.range_succ]
    rw [hd]
    simp only [envSlow, second]
    push_cast
    omega
  period := by
    intro k
    simp only [envSlow, second]
    push_cast
    omega
  timeout := by
    intro k i
    simp [envSlow, clientTimeout, second]

/-- The clock of `envLate` agrees with the probe durations and the ticker up
to a latency of one millisecond. -/
theorem envLate_timing : Timing urls6 envLate millisecond where
  first_lo := by decide
  first_hi := by decide
  next_lo := by
    intro k
    have hd : passDur urls6 envLate k = 50000500000 := by
      simp [passDur, probeTime, urls6, envLate, List.range_succ]
    rw [hd]
    simp only [envLate]
    push_cast
    omega
  next_hi := by
    intro k
    have hd : passDur urls6 envLate k = 50000500000 := by
      simp [passDur, probeTime, urls6, envLate, List.range_succ]
    rw [hd]
    simp only [envLate, second, millisecond]
    push_cast
    omega
  period := by
    intro k
    simp only [envLate, second, millisecond]
    push_cast
    omega
  timeout := by
    intro k i
    simp [envLate, clientTimeout, second, millisecond]

/-- C7, as stated, fails: with five fallbacks that each run into the 10 s
client timeout, the pass that starts 1 s in probes all five; the probe of
`URL[5]` starts 41 s in, after the deadline at 30 s, and `ServerDown` returns
51 s after it started, later than 30 s plus one client timeout. -/
theorem C7_counterexample :
    Timing urls6 envSlow 0
      ∧ crossCheck urls6 envSlow 2 = some ⟨[], 1, 1⟩
      ∧ deadline envSlow.start = some (envSlow.start + 30 * second)
      ∧ probesOfPass urls6.length (envSlow.probe 0) (urls6.drop 1) 1 = [1, 2, 3, 4, 5]
      ∧ envSlow.start + 30 * second < probeStart envSlow 0 5
      ∧ envSlow.start + 30 * second + clientTimeout < endTime envSlow ⟨[], 1, 1⟩ :=
  ⟨envSlow_timing, by decide, by decide, by decide, by decide, by decide⟩

/-- C7, amended: under a clock that agrees with the one-second ticker and
with probes that return at most `lat` after the 10 s client timeout, `lat`
being a latency of at most half a second, `ServerDown` returns, within 117
ticks. The deadline is at most 30 s after the start and is compared only when
a tick is read: every pass made started at least one whole second before the
deadline, so no new pass starts once the deadline has passed; but every pass
made calls `request` on every fallback, whatever the clock reads meanwhile.
`ServerDown` returns no later than 30 s, plus the client timeout and `lat`
for each fallback, plus `lat`, after it started. -/
theorem C7_window_bound (URL : List String) (e : Env) (lat : Int) (fuel : Nat)
    (ht : Timing URL e lat) (hlat : 2 * lat ≤ second) (hf : 116 < fuel) :
    ∃ r, crossCheck URL e fuel = some r
      ∧ r.passes ≤ 116
      ∧ (∀ v, deadline e.start = some v →
          v ≤ e.start + 30 * second ∧ ∀ k, k < r.passes → e.now k + second ≤ v)
      ∧ (∀ k, k < r.passes →
          probesOfPass URL.length (e.probe k) (URL.drop 1) 1
            = List.range' 1 (URL.length - 1))
      ∧ endTime e r
          ≤ e.start + 30 * second
            + ((URL.length - 1 : Nat) : Int) * (clientTimeout + lat) + lat := by
  obtain ⟨r, hr, hle⟩ :=
    crossCheck_returns URL e 116 fuel (expired_of_timing URL e lat ht hlat) hf
  have hpd : ∀ k, 0 ≤ passDur URL e k
      ∧ passDur URL e k ≤ ((URL.length - 1 : Nat) : Int) * (clientTimeout + lat) :=
    fun k => probeTime_le e k (URL.length - 1) (clientTimeout + lat) (ht.timeout k)
  have hct : (0 : Int) ≤ ((URL.length - 1 : Nat) : Int) * (clientTimeout + lat) :=
    le_trans (hpd 0).1 (hpd 0).2
  have hlat0 : 0 ≤ lat := by
    have h1 := ht.first_lo
    have h2 := ht.first_hi
    omega
  refine ⟨r, hr, hle, ?_, fun k _ => probesOfPass_pass URL (e.probe k), ?_⟩
  · intro v hv
    refine ⟨(deadline_bounds e.start v hv).1, fun k hk => ?_⟩
    unfold crossCheck at hr
    rw [hv] at hr
    have hs := tickLoop_spec URL e v fuel 0 [] 1 r rfl rfl hr
    exact (timeRemaining_pos_iff v (e.now k)).1 (hs.2.2.2.2.1 k (Nat.zero_le _) hk)
  · unfold endTime
    cases hd : deadline e.start with
    | none =>
      simp only
      have : (0 : Int) ≤ 30 * second := by decide
      omega
    | some v =>
      simp only
      have hb := (deadline_bounds e.start v hd).1
      unfold crossCheck at hr
      rw [hd] at hr
      have hs := tickLoop_spec URL e v fuel 0 [] 1 r rfl rfl hr
      cases hpass : r.passes with
      | zero =>
        have h1 := ht.first_hi
        have : second ≤ 30 * second := by decide
        omega
      | succ n =>
        have h1 := (timeRemaining_pos_iff v (e.now n)).1
          (hs.2.2.2.2.1 n (Nat.zero_le _) (by omega))
        have h2 := ht.next_hi n
        have h3 := (hpd n).2
        omega

/-- Witness for C7: the clock of `envLate`, with a latency of one
millisecond and five fallbacks that run into the client timeout. -/
theorem C7_window_bound_witness :
    Timing urls6 envLate millisecond ∧ 2 * millisecond ≤ second ∧ 116 < 117
      ∧ ∃ r, crossCheck urls6 envLate 117 = some r
        ∧ r.passes ≤ 116
        ∧ (∀ v, deadline envLate.start = some v →
            v ≤ envLate.start + 30 * second
              ∧ ∀ k, k < r.passes → envLate.now k + second ≤ v)
        ∧ (∀ k, k < r.passes →
            probesOfPass urls6.length (envLate.probe k) (urls6.drop 1) 1
              = List.range' 1 (urls6.length - 1))
        ∧ endTime envLate r
            ≤ envLate.start + 30 * second
              + ((urls6.length - 1 : Nat) : Int) * (clientTimeout + millisecond)
              + millisecond :=
  ⟨envLate_timing, by decide, by decide,
    C7_window_bound urls6 envLate millisecond 117 envLate_timing (by decide) (by decide)⟩

end Uptime
